import Mathlib

/-!
Query optimizer over partitioned data: embedding of `src/main.cpp`.

The C++ program keeps, per node, a vector of users and a vector of orders.
`QueryOptimizer::estimateCost` counts records, `QueryOptimizer::optimizeQuery`
picks the cheaper of two fixed plans, and `executeQuery` runs a per-node
nested-loop join.  The definitions below follow the source statement by
statement: range-`for` loops are left folds over lists carrying the loop's
mutable variable, `push_back` appends at the end, C++ `int` values are
integers, and the `int`/`size_t` conversions of `total += v.size()` are
written out with their moduli.
-/

namespace QueryOptimizerProject

/-! ## Data model (`struct User`, `struct Order`, `struct Node`) -/

/-- Record `struct User { int user_id; std::string name; int age; }`. -/
structure User where
  user_id : Int
  name : String
  age : Int
  deriving DecidableEq

/-- Record `struct Order { int order_id; int user_id; std::string product; int quantity; }`. -/
structure Order where
  order_id : Int
  user_id : Int
  product : String
  quantity : Int
  deriving DecidableEq

/-- Record `struct Node { std::vector<User> users; std::vector<Order> orders; }`. -/
structure Node where
  users : List User
  orders : List Order
  deriving DecidableEq

/-! ## Machine integers -/

/-- Constant `INT_MAX` of `<climits>` for a 32-bit `int`. -/
def INT_MAX : Int := 2147483647

/-- Constant `INT_MIN` of `<climits>` for a 32-bit `int`. -/
def INT_MIN : Int := -2147483648

/-- Conversion of an `int` to the 64-bit unsigned `size_t` (value modulo `2^64`). -/
def intToSizeT (i : Int) : Nat := (i % 2 ^ 64).toNat

/-- Conversion of a `size_t` value to a 32-bit `int`: the value modulo `2^32`,
read in two's complement. -/
def sizeTToInt (n : Nat) : Int :=
  if n % 2 ^ 32 < 2 ^ 31 then ((n % 2 ^ 32 : Nat) : Int) else ((n % 2 ^ 32 : Nat) : Int) - 2 ^ 32

/-- Statement `total += v.size()` with `int total` and `size_t v.size()`: the
left operand is converted to `size_t`, the sum is taken modulo `2^64`, and the
result is converted back to `int`. -/
def addAssignSize (total : Int) (size : Nat) : Int :=
  sizeTToInt ((intToSizeT total + size % 2 ^ 64) % 2 ^ 64)

/-! ## `std::to_string(int)` and `std::map<std::string, std::string>` -/

/-- Character of one decimal digit. -/
def digitChar (d : Nat) : Char := Char.ofNat (48 + d)

/-- Decimal digits of `n`, most significant first, pushed in front of `acc`;
`fuel` bounds the number of digits produced. -/
def natDigitsAux : Nat → Nat → List Char → List Char
  | 0, _, acc => acc
  | fuel + 1, n, acc =>
    if n / 10 = 0 then digitChar (n % 10) :: acc
    else natDigitsAux fuel (n / 10) (digitChar (n % 10) :: acc)

/-- Decimal digits of a natural number (`"0"` for zero, no leading zeros otherwise). -/
def natDigits (n : Nat) : List Char := natDigitsAux (n + 1) n []

/-- Function `std::to_string(int)`: the decimal text of the value, with a
leading minus sign for negative values (as `printf("%d")`). -/
def to_string (i : Int) : String :=
  match i with
  | Int.ofNat n => String.mk (natDigits n)
  | Int.negSucc n => String.mk ('-' :: natDigits (n + 1))

/-- Type `std::map<std::string, std::string>`, kept as its sequence of
entries in increasing key order (the order of iteration). -/
abbrev StdMap := List (String × String)

/-- Lexicographic comparison of two character sequences by character code. -/
def charsLess : List Char → List Char → Bool
  | [], [] => false
  | [], _ :: _ => true
  | _ :: _, [] => false
  | a :: as, b :: bs =>
    if a.toNat < b.toNat then true
    else if a.toNat = b.toNat then charsLess as bs
    else false

/-- Comparison `std::less<std::string>`, the key order of the map. -/
def keyLess (a b : String) : Bool := charsLess a.data b.data

/-- Statement `m[k] = v`: overwrite the entry of key `k` when there is one,
otherwise insert a new entry at its place in key order. -/
def StdMap.assign : StdMap → String → String → StdMap
  | [], k, v => [(k, v)]
  | (k', v') :: rest, k, v =>
    if keyLess k k' then (k, v) :: (k', v') :: rest
    else if k = k' then (k, v) :: rest
    else (k', v') :: StdMap.assign rest k v

/-- Lookup `m.find(k)`: the value stored under `k`, if any. -/
def StdMap.find : StdMap → String → Option String
  | [], _ => none
  | (k', v') :: rest, k => if k = k' then some v' else StdMap.find rest k

/-- Keys of a map in iteration order. -/
def StdMap.keys (m : StdMap) : List String := m.map Prod.fst

/-- Body of the innermost `if` of `executeQuery`: the fresh `row` map after its
six assignments (lines 82-88 and 101-107, the same text in both plans). -/
def makeRow (user : User) (order : Order) : StdMap :=
  let row : StdMap := []
  let row := row.assign "user_id" (to_string user.user_id)
  let row := row.assign "name" user.name
  let row := row.assign "age" (to_string user.age)
  let row := row.assign "order_id" (to_string order.order_id)
  let row := row.assign "product" order.product
  let row := row.assign "quantity" (to_string order.quantity)
  row

/-! ## `class QueryOptimizer` -/

/-- Object `class QueryOptimizer`: its only member is the copy of the nodes
taken by the constructor. -/
structure QueryOptimizer where
  nodes : List Node
  deriving DecidableEq

/-- Method `QueryOptimizer::estimateCost(plan)`. -/
def QueryOptimizer.estimateCost (self : QueryOptimizer) (plan : String) : Int :=
  if plan = "plan1" then
    self.nodes.foldl (fun total_users node => addAssignSize total_users node.users.length) 0
  else if plan = "plan2" then
    self.nodes.foldl (fun total_orders node => addAssignSize total_orders node.orders.length) 0
  else
    INT_MAX

/-- Method `QueryOptimizer::optimizeQuery(query)`. -/
def QueryOptimizer.optimizeQuery (self : QueryOptimizer) (_query : String) : String × Int :=
  let plan1_cost := self.estimateCost "plan1"
  let plan2_cost := self.estimateCost "plan2"
  if plan1_cost < plan2_cost then ("plan1", plan1_cost) else ("plan2", plan2_cost)

/-! ## `executeQuery` -/

/-- Function `executeQuery(plan, nodes)`: the loops of the source, with
`result` threaded through them. -/
def executeQuery (plan : String) (nodes : List Node) : List StdMap :=
  let result : List StdMap := []
  if plan = "plan1" then
    nodes.foldl (fun result node =>
      node.users.foldl (fun result user =>
        node.orders.foldl (fun result order =>
          if user.user_id = order.user_id then result ++ [makeRow user order] else result)
          result)
        result)
      result
  else if plan = "plan2" then
    nodes.foldl (fun result node =>
      node.orders.foldl (fun result order =>
        if order.quantity > 1 then
          node.users.foldl (fun result user =>
            if user.user_id = order.user_id then result ++ [makeRow user order] else result)
            result
        else result)
        result)
      result
  else
    result

/-! ## Reference definitions taken from the specification's wording -/

/-- Matching pairs of one node in `plan1` order as the specification words
them: each user in node order, then each order of the same node in node order,
kept when the order's user identifier equals the user's identifier. -/
def plan1NodePairs (node : Node) : List (User × Order) :=
  (node.users.map (fun u =>
    (node.orders.filter (fun o => decide (u.user_id = o.user_id))).map (fun o => (u, o)))).flatten

/-- Matching pairs of the whole store for `plan1`: per node, in store order. -/
def plan1Pairs (store : List Node) : List (User × Order) :=
  (store.map plan1NodePairs).flatten

/-- Reference result of `plan1`: one row per matching pair. -/
def plan1Reference (store : List Node) : List StdMap :=
  (plan1Pairs store).map (fun p => makeRow p.1 p.2)

/-- Matching pairs of one node in `plan2` order as the specification words
them: each order of quantity above one in node order, then each user of the
same node in node order, kept when the identifiers are equal. -/
def plan2NodePairs (node : Node) : List (User × Order) :=
  ((node.orders.filter (fun o => decide (o.quantity > 1))).map (fun o =>
    (node.users.filter (fun u => decide (u.user_id = o.user_id))).map (fun u => (u, o)))).flatten

/-- Matching pairs of the whole store for `plan2`: per node, in store order. -/
def plan2Pairs (store : List Node) : List (User × Order) :=
  (store.map plan2NodePairs).flatten

/-- Reference result of `plan2`: one row per matching pair. -/
def plan2Reference (store : List Node) : List StdMap :=
  (plan2Pairs store).map (fun p => makeRow p.1 p.2)

/-- Value of a decimal digit character, if it is one. -/
def digitValue (c : Char) : Option Nat :=
  if 48 ≤ c.toNat ∧ c.toNat ≤ 57 then some (c.toNat - 48) else none

/-- Reading of a sequence of decimal digits, continuing from the value `a`;
fails on any other character. -/
def parseDigits : List Char → Nat → Option Nat
  | [], a => some a
  | c :: cs, a =>
    match digitValue c with
    | none => none
    | some d => parseDigits cs (10 * a + d)

/-- Reading of a text as a decimal integer: an optional minus sign followed by
at least one digit and nothing else. -/
def parseDecimal (s : String) : Option Int :=
  match s.data with
  | [] => none
  | c :: cs =>
    if c = '-' then
      if cs = [] then none else (parseDigits cs 0).map (fun n => -(n : Int))
    else (parseDigits (c :: cs) 0).map (fun n => (n : Int))

/-- The six field names of a result row, in key order. -/
def rowKeys : List String := ["age", "name", "order_id", "product", "quantity", "user_id"]

/-- The store with every order of quantity at most one removed. -/
def dropSmallOrders (store : List Node) : List Node :=
  store.map (fun node => ⟨node.users, node.orders.filter (fun o => decide (o.quantity > 1))⟩)

/-- Sum of the per-node user counts of a store. -/
def totalUsers (store : List Node) : Nat := (store.map (fun node => node.users.length)).sum

/-- Sum of the per-node order counts of a store. -/
def totalOrders (store : List Node) : Nat := (store.map (fun node => node.orders.length)).sum

/-- A store of one node holding `2^31` copies of one user and no order. -/
def overflowStore : List Node := [⟨List.replicate 2147483648 ⟨1, "Ann", 30⟩, []⟩]

/-- The row of user 5 (age -7) joined with order -12, written out. -/
def sampleRow : StdMap :=
  [("age", "-7"), ("name", "Ann Lee"), ("order_id", "-12"), ("product", "Pen"),
   ("quantity", "2"), ("user_id", "5")]

/-! ## Sample stores and counts -/

/-- The store of Scenario A: one node with user Ann and two orders of hers. -/
def scenarioA : List Node :=
  [⟨[⟨1, "Ann", 30⟩], [⟨1, 1, "Pen", 1⟩, ⟨2, 1, "Pen", 3⟩]⟩]

/-- Per-node record counts of a store: users and orders of each node. -/
def nodeCounts (store : List Node) : List (Nat × Nat) :=
  store.map (fun node => (node.users.length, node.orders.length))

/-- Number of rows an order contributes in its node: the users of the node
whose identifier the order references. -/
def rowsOfOrder (node : Node) (o : Order) : Nat :=
  (node.users.filter (fun u => decide (u.user_id = o.user_id))).length

/-- Number of orders of quantity above one in a store. -/
def ordersAboveOne (store : List Node) : Nat :=
  (store.map (fun node => (node.orders.filter (fun o => decide (o.quantity > 1))).length)).sum

/-- Test on a (user, order) pair: the order has quantity above one. -/
def pairAboveOne (p : User × Order) : Bool := decide (p.2.quantity > 1)

/-! ## Random data generation (`generateRandomData`) -/

/-- Ways in which a run of `generateRandomData` leaves defined behaviour. -/
inductive Fault where
  | modulusByZero
  | indexOutOfRange
  | signedOverflow
  deriving DecidableEq

/-- State of a run of `generateRandomData`: the caller's nodes (passed by
reference) and the number of `rand()` calls made so far. -/
structure GenState where
  nodes : List Node
  calls : Nat
  deriving DecidableEq

/-- Table `firstNames` of `generateRandomName`. -/
def firstNames : List String :=
  ["Alice", "Bob", "Charlie", "David", "Eve", "Frank", "Grace", "Hank", "Ivy", "Jack"]

/-- Table `lastNames` of `generateRandomName`. -/
def lastNames : List String :=
  ["Smith", "Johnson", "Williams", "Brown", "Jones", "Garcia", "Miller", "Davis",
   "Rodriguez", "Martinez"]

/-- Table `products` of `generateRandomProduct`. -/
def products : List String :=
  ["Laptop", "Phone", "Tablet", "Monitor", "Keyboard", "Mouse", "Printer", "Headphones",
   "Camera", "Speaker"]

/-- Call `rand()`: the next value of the sequence `rand` fixed by `srand`, a
non-negative `int`, and the state with one more call counted. -/
def randCall (rand : Nat → Nat) (st : GenState) : Int × GenState :=
  (((rand st.calls : Nat) : Int), ⟨st.nodes, st.calls + 1⟩)

/-- Order in which the compiler evaluates the two operands of the last `+` of
`firstNames[rand() % 10] + " " + lastNames[rand() % 10]`; C++ leaves it
unspecified (g++ evaluates the right operand first). -/
inductive OperandOrder where
  | leftFirst
  | rightFirst
  deriving DecidableEq

/-- The name built from the values `a` and `b` of the first and the second
`rand()` call: under `leftFirst` the first call indexes `firstNames`, under
`rightFirst` it indexes `lastNames` (`%` on `int` truncates; the indices are
within 0..9). -/
def joinName (ord : OperandOrder) (a b : Int) : String :=
  match ord with
  | .leftFirst =>
    firstNames.getD (Int.tmod a 10).toNat "" ++ " " ++ lastNames.getD (Int.tmod b 10).toNat ""
  | .rightFirst =>
    firstNames.getD (Int.tmod b 10).toNat "" ++ " " ++ lastNames.getD (Int.tmod a 10).toNat ""

/-- Function `generateRandomName()`: two `rand()` calls, made in the order the
compiler chose for the operands. -/
def generateRandomName (rand : Nat → Nat) (ord : OperandOrder) (st : GenState) :
    String × GenState :=
  let r1 := randCall rand st
  let r2 := randCall rand r1.2
  (joinName ord r1.1 r2.1, r2.2)

/-- Function `generateRandomProduct()`. -/
def generateRandomProduct (rand : Nat → Nat) (st : GenState) : String × GenState :=
  let r := randCall rand st
  (products.getD (Int.tmod r.1 10).toNat "", r.2)

/-- Access `nodes[idx]` followed by a change of that node: out of range when
`idx` is not below the number of nodes. -/
def modifyNode : List Node → Nat → (Node → Node) → Except Fault (List Node)
  | [], _, _ => .error .indexOutOfRange
  | node :: rest, 0, f => .ok (f node :: rest)
  | node :: rest, idx + 1, f =>
    match modifyNode rest idx f with
    | .error e => .error e
    | .ok rest' => .ok (node :: rest')

/-- Statement `node.users.push_back(user)`. -/
def pushUser (user : User) (node : Node) : Node := ⟨node.users ++ [user], node.orders⟩

/-- Statement `node.orders.push_back(order)`. -/
def pushOrder (order : Order) (node : Node) : Node := ⟨node.users, node.orders ++ [order]⟩

/-- Body of the first loop of `generateRandomData` for the counter value `i`:
build the user, then `nodes[i % nodes.size()].users.push_back(user)`, where
`i` is converted to `size_t` and the modulus faults on an empty vector. -/
def userStep (rand : Nat → Nat) (ord : OperandOrder) (i : Int) (st : GenState) : Except Fault GenState :=
  let nm := generateRandomName rand ord st
  let r := randCall rand nm.2
  let user : User := ⟨i, nm.1, 18 + Int.tmod r.1 50⟩
  let st := r.2
  if st.nodes.length = 0 then .error .modulusByZero
  else
    match modifyNode st.nodes (intToSizeT i % st.nodes.length) (pushUser user) with
    | .error e => .error e
    | .ok nodes => .ok ⟨nodes, st.calls⟩

/-- Body of the second loop of `generateRandomData` for the counter value `i`:
build the order (`rand() % numUsers` faults when `numUsers` is zero, and
`1 + rand() % numUsers` overflows `int` when the remainder is `INT_MAX`), then
`nodes[i % nodes.size()].orders.push_back(order)`. -/
def orderStep (rand : Nat → Nat) (numUsers : Int) (i : Int) (st : GenState) :
    Except Fault GenState :=
  let r1 := randCall rand st
  if numUsers = 0 then .error .modulusByZero
  else if INT_MAX < 1 + Int.tmod r1.1 numUsers then .error .signedOverflow
  else
    let p := generateRandomProduct rand r1.2
    let r2 := randCall rand p.2
    let order : Order := ⟨i, 1 + Int.tmod r1.1 numUsers, p.1, 1 + Int.tmod r2.1 5⟩
    let st := r2.2
    if st.nodes.length = 0 then .error .modulusByZero
    else
      match modifyNode st.nodes (intToSizeT i % st.nodes.length) (pushOrder order) with
      | .error e => .error e
      | .ok nodes => .ok ⟨nodes, st.calls⟩

/-- Successive iterations of a loop body for the given counter values; the
first fault ends the run. -/
def runSteps (body : Int → GenState → Except Fault GenState) :
    List Nat → GenState → Except Fault GenState
  | [], st => .ok st
  | k :: ks, st =>
    match body ((k : Nat) : Int) st with
    | .error e => .error e
    | .ok st' => runSteps body ks st'

/-- Loop `for (int i = 1; i <= bound; ++i) body`: the iterations for
`i = 1, ..., bound`; with `bound = INT_MAX` the final `++i` overflows. -/
def countingLoop (bound : Int) (body : Int → GenState → Except Fault GenState)
    (st : GenState) : Except Fault GenState :=
  match runSteps body (List.range' 1 bound.toNat) st with
  | .error e => .error e
  | .ok st' => if INT_MAX ≤ bound then .error .signedOverflow else .ok st'

/-- Function `generateRandomData(nodes, numUsers, numOrders)`, with the
sequence of `rand()` values selected by `srand(time(0))` as the parameter
`rand`: the nodes after the run, or the fault that ends it. -/
def generateRandomData (rand : Nat → Nat) (ord : OperandOrder) (nodes : List Node) (numUsers numOrders : Int) :
    Except Fault (List Node) :=
  match countingLoop numUsers (userStep rand ord) ⟨nodes, 0⟩ with
  | .error e => .error e
  | .ok st =>
    match countingLoop numOrders (orderStep rand numUsers) st with
    | .error e => .error e
    | .ok st' => .ok st'.nodes

/-- The user built in the iteration with counter `k` that starts after `c`
calls of `rand()`. -/
def userAt (rand : Nat → Nat) (ord : OperandOrder) (c : Nat) (k : Nat) : User :=
  ⟨(k : Int), joinName ord ((rand c : Nat) : Int) ((rand (c + 1) : Nat) : Int),
   18 + Int.tmod ((rand (c + 2) : Nat) : Int) 50⟩

/-- The order built in the iteration with counter `k` that starts after `c`
calls of `rand()`. -/
def orderAt (rand : Nat → Nat) (numUsers : Int) (c : Nat) (k : Nat) : Order :=
  ⟨(k : Int), 1 + Int.tmod ((rand c : Nat) : Int) numUsers,
   products.getD (Int.tmod ((rand (c + 1) : Nat) : Int) 10).toNat "",
   1 + Int.tmod ((rand (c + 2) : Nat) : Int) 5⟩

/-- Node index `i % nodes.size()` of the record with counter `k` among `n` nodes. -/
def nodeIndex (n : Nat) (k : Nat) : Nat := intToSizeT ((k : Nat) : Int) % n

/-- The users with counters `1..m` that land on node `j` of `n`, in the order
in which they are pushed. -/
def usersOn (rand : Nat → Nat) (ord : OperandOrder) (n m j : Nat) : List User :=
  ((List.range' 1 m).filter (fun k => decide (nodeIndex n k = j))).map
    (fun k => userAt rand ord (3 * (k - 1)) k)

/-- The orders with counters `1..p` that land on node `j` of `n`, in the order
in which they are pushed, the order loop starting after `c0` calls of `rand()`. -/
def ordersOn (rand : Nat → Nat) (numUsers : Int) (c0 n p j : Nat) : List Order :=
  ((List.range' 1 p).filter (fun k => decide (nodeIndex n k = j))).map
    (fun k => orderAt rand numUsers (c0 + 3 * (k - 1)) k)

/-- All users of a store, node by node. -/
def allUsers (store : List Node) : List User := store.flatMap (fun node => node.users)

/-- All orders of a store, node by node. -/
def allOrders (store : List Node) : List Order := store.flatMap (fun node => node.orders)

/-- A sample sequence of `rand()` values. -/
def sampleRand (k : Nat) : Nat := 7 * k + 3

/-- The sequence in which every `rand()` call returns 2147483647. -/
def maxRand (_k : Nat) : Nat := 2147483647

/-- The nodes left by `generateRandomData` on `n` empty nodes, in closed form. -/
def generatedNodes (rand : Nat → Nat) (ord : OperandOrder) (n : Nat) (numUsers numOrders : Int) : List Node :=
  (List.range n).map (fun j =>
    (⟨usersOn rand ord n numUsers.toNat j,
      ordersOn rand numUsers (3 * numUsers.toNat) n numOrders.toNat j⟩ : Node))

/-- The nodes of `main`: `std::vector<Node> nodes(4)`, four empty nodes. -/
def mainNodes : List Node := [⟨[], []⟩, ⟨[], []⟩, ⟨[], []⟩, ⟨[], []⟩]

/-- Number of counters in `1..m` whose record lands on node `j` of `n`. -/
def landingCount (n m j : Nat) : Nat :=
  ((List.range' 1 m).filter (fun k => decide (nodeIndex n k = j))).length

/-! ## Loops as list expressions -/

/-- A loop that pushes one element for each item passing a test appends the
mapped, filtered items to the accumulator. -/
theorem foldl_push_if {α β : Type} (p : α → Prop) [DecidablePred p] (g : α → β)
    (xs : List α) (init : List β) :
    xs.foldl (fun r x => if p x then r ++ [g x] else r) init
      = init ++ (xs.filter (fun x => decide (p x))).map g := by
  induction xs generalizing init with
  | nil => simp
  | cons x xs ih =>
    by_cases hx : p x
    · simp [List.foldl_cons, ih, hx]
    · simp [List.foldl_cons, ih, hx]

/-- A loop that appends a block for each item appends the concatenated blocks. -/
theorem foldl_append_blocks {α β : Type} (f : α → List β) (xs : List α) (init : List β) :
    xs.foldl (fun r x => r ++ f x) init = init ++ (xs.map f).flatten := by
  induction xs generalizing init with
  | nil => simp
  | cons x xs ih => simp [List.foldl_cons, ih]

/-- A loop that appends a block for each item passing a test appends the
concatenated blocks of the filtered items. -/
theorem foldl_append_blocks_if {α β : Type} (p : α → Prop) [DecidablePred p]
    (f : α → List β) (xs : List α) (init : List β) :
    xs.foldl (fun r x => if p x then r ++ f x else r) init
      = init ++ ((xs.filter (fun x => decide (p x))).map f).flatten := by
  induction xs generalizing init with
  | nil => simp
  | cons x xs ih =>
    by_cases hx : p x
    · simp [List.foldl_cons, ih, hx]
    · simp [List.foldl_cons, ih, hx]

/-- Unfolding of `executeQuery` for `plan1` into per-node blocks of rows. -/
theorem executeQuery_plan1_blocks (store : List Node) :
    executeQuery "plan1" store
      = (store.map (fun node => (plan1NodePairs node).map (fun p => makeRow p.1 p.2))).flatten := by
  simp only [executeQuery, if_true, foldl_push_if, foldl_append_blocks, List.nil_append]
  congr 1
  apply List.map_congr_left
  intro node _
  simp [plan1NodePairs, List.map_flatten, Function.comp_def]

/-- Unfolding of `executeQuery` for `plan2` into per-node blocks of rows. -/
theorem executeQuery_plan2_blocks (store : List Node) :
    executeQuery "plan2" store
      = (store.map (fun node => (plan2NodePairs node).map (fun p => makeRow p.1 p.2))).flatten := by
  have h : ("plan2" = "plan1") = False := by decide
  simp only [executeQuery, h, if_false, if_true, foldl_push_if, foldl_append_blocks,
    foldl_append_blocks_if, List.nil_append]
  congr 1
  apply List.map_congr_left
  intro node _
  simp [plan2NodePairs, List.map_flatten, Function.comp_def]

/-! ## The counting loop of `estimateCost` -/

/-- Converting to `int` only looks at the low 32 bits. -/
theorem sizeTToInt_congr (a b : Nat) (h : a % 2 ^ 32 = b % 2 ^ 32) :
    sizeTToInt a = sizeTToInt b := by
  simp only [sizeTToInt, h]

/-- One `total += size` step on an `int` that holds the low 32 bits of `a`
holds the low 32 bits of `a + size` afterwards. -/
theorem addAssignSize_sizeTToInt (a size : Nat) :
    addAssignSize (sizeTToInt a) size = sizeTToInt (a + size) := by
  unfold addAssignSize
  apply sizeTToInt_congr
  unfold intToSizeT sizeTToInt
  split <;> omega

/-- The counting loop started from the low 32 bits of `a` ends with the low
32 bits of `a` plus the sum of the sizes. -/
theorem foldl_addAssignSize (f : Node → Nat) (nodes : List Node) (a : Nat) :
    nodes.foldl (fun total node => addAssignSize total (f node)) (sizeTToInt a)
      = sizeTToInt (a + (nodes.map f).sum) := by
  induction nodes generalizing a with
  | nil => simp
  | cons node nodes ih =>
    simp only [List.foldl_cons, List.map_cons, List.sum_cons, addAssignSize_sizeTToInt, ih]
    congr 1
    omega

/-- Below `2^31` the conversion to `int` keeps the value. -/
theorem sizeTToInt_of_le (n : Nat) (h : (n : Int) ≤ INT_MAX) : sizeTToInt n = n := by
  unfold INT_MAX at h
  unfold sizeTToInt
  split <;> omega

/-- Result of `estimateCost "plan1"`: the user total, converted to `int`. -/
theorem estimateCost_plan1_wrapped (q : QueryOptimizer) :
    q.estimateCost "plan1" = sizeTToInt (totalUsers q.nodes) := by
  have h := foldl_addAssignSize (fun node => node.users.length) q.nodes 0
  have h0 : sizeTToInt 0 = 0 := by decide
  simp only [h0, Nat.zero_add] at h
  simp only [QueryOptimizer.estimateCost, if_true, totalUsers, h]

/-- Result of `estimateCost "plan2"`: the order total, converted to `int`. -/
theorem estimateCost_plan2_wrapped (q : QueryOptimizer) :
    q.estimateCost "plan2" = sizeTToInt (totalOrders q.nodes) := by
  have h := foldl_addAssignSize (fun node => node.orders.length) q.nodes 0
  have h0 : sizeTToInt 0 = 0 := by decide
  have hne : ("plan2" = "plan1") = False := by decide
  simp only [h0, Nat.zero_add] at h
  simp only [QueryOptimizer.estimateCost, hne, if_false, if_true, totalOrders, h]

/-! ## Where the rows come from -/

/-- Membership in the `plan1` pairs of one node. -/
theorem mem_plan1NodePairs (node : Node) (u : User) (o : Order) :
    (u, o) ∈ plan1NodePairs node ↔ u ∈ node.users ∧ o ∈ node.orders ∧ u.user_id = o.user_id := by
  simp only [plan1NodePairs, List.mem_flatten, List.mem_map]
  constructor
  · rintro ⟨l, ⟨u', hu', rfl⟩, hmem⟩
    obtain ⟨o', ho', heq⟩ := List.mem_map.1 hmem
    cases heq
    rw [List.mem_filter, decide_eq_true_eq] at ho'
    exact ⟨hu', ho'.1, ho'.2⟩
  · rintro ⟨hu, ho, hm⟩
    refine ⟨_, ⟨u, hu, rfl⟩, List.mem_map.2 ⟨o, ?_, rfl⟩⟩
    rw [List.mem_filter, decide_eq_true_eq]
    exact ⟨ho, hm⟩

/-- Membership in the `plan2` pairs of one node. -/
theorem mem_plan2NodePairs (node : Node) (u : User) (o : Order) :
    (u, o) ∈ plan2NodePairs node ↔
      u ∈ node.users ∧ o ∈ node.orders ∧ u.user_id = o.user_id ∧ o.quantity > 1 := by
  simp only [plan2NodePairs, List.mem_flatten, List.mem_map]
  constructor
  · rintro ⟨l, ⟨o', ho', rfl⟩, hmem⟩
    obtain ⟨u', hu', heq⟩ := List.mem_map.1 hmem
    cases heq
    rw [List.mem_filter, decide_eq_true_eq] at ho' hu'
    exact ⟨hu'.1, ho'.1, hu'.2, ho'.2⟩
  · rintro ⟨hu, ho, hm, hq⟩
    refine ⟨_, ⟨o, ?_, rfl⟩, List.mem_map.2 ⟨u, ?_, rfl⟩⟩
    · rw [List.mem_filter, decide_eq_true_eq]
      exact ⟨ho, hq⟩
    · rw [List.mem_filter, decide_eq_true_eq]
      exact ⟨hu, hm⟩

/-- Membership in the `plan1` pairs: a user and an order of one node with equal
user identifiers. -/
theorem mem_plan1Pairs (store : List Node) (u : User) (o : Order) :
    (u, o) ∈ plan1Pairs store ↔
      ∃ node ∈ store, u ∈ node.users ∧ o ∈ node.orders ∧ u.user_id = o.user_id := by
  simp only [plan1Pairs, List.mem_flatten, List.mem_map]
  constructor
  · rintro ⟨l, ⟨node, hnode, rfl⟩, hmem⟩
    exact ⟨node, hnode, (mem_plan1NodePairs node u o).1 hmem⟩
  · rintro ⟨node, hnode, h⟩
    exact ⟨_, ⟨node, hnode, rfl⟩, (mem_plan1NodePairs node u o).2 h⟩

/-- Membership in the `plan2` pairs: a user and an order of one node with equal
user identifiers, the order having quantity above one. -/
theorem mem_plan2Pairs (store : List Node) (u : User) (o : Order) :
    (u, o) ∈ plan2Pairs store ↔
      ∃ node ∈ store, u ∈ node.users ∧ o ∈ node.orders ∧ u.user_id = o.user_id ∧
        o.quantity > 1 := by
  simp only [plan2Pairs, List.mem_flatten, List.mem_map]
  constructor
  · rintro ⟨l, ⟨node, hnode, rfl⟩, hmem⟩
    exact ⟨node, hnode, (mem_plan2NodePairs node u o).1 hmem⟩
  · rintro ⟨node, hnode, h⟩
    exact ⟨_, ⟨node, hnode, rfl⟩, (mem_plan2NodePairs node u o).2 h⟩

/-- Every row of `executeQuery "plan1"` is the row of a matching pair of one node. -/
theorem mem_executeQuery_plan1 (store : List Node) (row : StdMap) :
    row ∈ executeQuery "plan1" store ↔
      ∃ node ∈ store, ∃ u ∈ node.users, ∃ o ∈ node.orders,
        u.user_id = o.user_id ∧ row = makeRow u o := by
  rw [executeQuery_plan1_blocks]
  have hb : (store.map (fun node => (plan1NodePairs node).map (fun p => makeRow p.1 p.2))).flatten
      = (plan1Pairs store).map (fun p => makeRow p.1 p.2) := by
    simp [plan1Pairs, List.map_flatten, Function.comp_def]
  rw [hb, List.mem_map]
  constructor
  · rintro ⟨⟨u, o⟩, hp, rfl⟩
    obtain ⟨node, hnode, hu, ho, hm⟩ := (mem_plan1Pairs store u o).1 hp
    exact ⟨node, hnode, u, hu, o, ho, hm, rfl⟩
  · rintro ⟨node, hnode, u, hu, o, ho, hm, rfl⟩
    exact ⟨(u, o), (mem_plan1Pairs store u o).2 ⟨node, hnode, hu, ho, hm⟩, rfl⟩

/-- Every row of `executeQuery "plan2"` is the row of a matching pair of one
node whose order has quantity above one. -/
theorem mem_executeQuery_plan2 (store : List Node) (row : StdMap) :
    row ∈ executeQuery "plan2" store ↔
      ∃ node ∈ store, ∃ u ∈ node.users, ∃ o ∈ node.orders,
        u.user_id = o.user_id ∧ o.quantity > 1 ∧ row = makeRow u o := by
  rw [executeQuery_plan2_blocks]
  have hb : (store.map (fun node => (plan2NodePairs node).map (fun p => makeRow p.1 p.2))).flatten
      = (plan2Pairs store).map (fun p => makeRow p.1 p.2) := by
    simp [plan2Pairs, List.map_flatten, Function.comp_def]
  rw [hb, List.mem_map]
  constructor
  · rintro ⟨⟨u, o⟩, hp, rfl⟩
    obtain ⟨node, hnode, hu, ho, hm, hq⟩ := (mem_plan2Pairs store u o).1 hp
    exact ⟨node, hnode, u, hu, o, ho, hm, hq, rfl⟩
  · rintro ⟨node, hnode, u, hu, o, ho, hm, hq, rfl⟩
    exact ⟨(u, o), (mem_plan2Pairs store u o).2 ⟨node, hnode, hu, ho, hm, hq⟩, rfl⟩

/-! ## Decimal text -/

/-- A digit character reads back as its digit. -/
theorem digitValue_digitChar (d : Nat) (h : d < 10) : digitValue (digitChar d) = some d := by
  interval_cases d <;> rfl

/-- A digit character is not the minus sign. -/
theorem digitChar_ne_minus (d : Nat) (h : d < 10) : digitChar d ≠ '-' := by
  interval_cases d <;> decide

/-- With enough fuel the digit loop puts a non-empty block of digits in front of
the accumulator, none of them a minus sign, and the block reads back as `n`. -/
theorem natDigitsAux_spec (fuel n : Nat) (acc : List Char) (h : n < fuel) :
    ∃ ds : List Char, natDigitsAux fuel n acc = ds ++ acc ∧ ds ≠ [] ∧
      (∀ c ∈ ds, c ≠ '-') ∧
      ∀ (tail : List Char) (a : Nat),
        parseDigits (ds ++ tail) a = parseDigits tail (a * 10 ^ ds.length + n) := by
  induction fuel generalizing n acc with
  | zero => omega
  | succ fuel ih =>
    have hd : n % 10 < 10 := Nat.mod_lt _ (by decide)
    by_cases h0 : n / 10 = 0
    · refine ⟨[digitChar (n % 10)], by simp [natDigitsAux, h0], by simp, ?_, ?_⟩
      · intro c hc
        rw [List.mem_singleton] at hc
        rw [hc]
        exact digitChar_ne_minus _ hd
      · intro tail a
        have hn : a * 10 ^ 1 + n = 10 * a + n % 10 := by omega
        simp only [List.length_singleton]
        rw [hn]
        simp [parseDigits, digitValue_digitChar _ hd]
    · obtain ⟨ds, hds, _, hminus, hparse⟩ :=
        ih (n / 10) (digitChar (n % 10) :: acc) (by omega)
      refine ⟨ds ++ [digitChar (n % 10)], by simp [natDigitsAux, h0, hds], by simp, ?_, ?_⟩
      · intro c hc
        rcases List.mem_append.1 hc with hc | hc
        · exact hminus c hc
        · rw [List.mem_singleton] at hc
          rw [hc]
          exact digitChar_ne_minus _ hd
      · intro tail a
        have hn : 10 * (a * 10 ^ ds.length + n / 10) + n % 10
            = a * 10 ^ (ds.length + 1) + n := by
          rw [pow_succ]
          have := Nat.div_add_mod n 10
          nlinarith
        simp only [List.length_append, List.length_singleton]
        rw [← hn, List.append_assoc, hparse]
        simp [parseDigits, digitValue_digitChar _ hd]

/-- The digits of a natural number: a non-empty block without minus sign that
reads back as the number. -/
theorem natDigits_spec (n : Nat) :
    natDigits n ≠ [] ∧ (∀ c ∈ natDigits n, c ≠ '-') ∧ parseDigits (natDigits n) 0 = some n := by
  obtain ⟨ds, hds, hne, hminus, hparse⟩ := natDigitsAux_spec (n + 1) n [] (by omega)
  have he : natDigits n = ds := by simp [natDigits, hds]
  refine ⟨he ▸ hne, he ▸ hminus, ?_⟩
  have := hparse [] 0
  simpa [he, parseDigits] using this

/-- Reading the text of `to_string i` as a decimal integer gives `i` back. -/
theorem parseDecimal_to_string (i : Int) : parseDecimal (to_string i) = some i := by
  cases i with
  | ofNat n =>
    obtain ⟨hne, hminus, hparse⟩ := natDigits_spec n
    cases hds : natDigits n with
    | nil => exact absurd hds hne
    | cons c cs =>
      have hc : c ≠ '-' := hminus c (by simp [hds])
      rw [hds] at hparse
      simp [parseDecimal, to_string, hds, hc, hparse]
  | negSucc n =>
    obtain ⟨hne, _, hparse⟩ := natDigits_spec (n + 1)
    simp only [parseDecimal, to_string, if_true, hne, if_false, hparse, Option.map_some']
    rfl

/-- The row of a pair, entry by entry in key order. -/
theorem makeRow_entries (u : User) (o : Order) :
    makeRow u o =
      [("age", to_string u.age), ("name", u.name), ("order_id", to_string o.order_id),
       ("product", o.product), ("quantity", to_string o.quantity),
       ("user_id", to_string u.user_id)] := by
  rfl

/-- A key has a value in a map exactly when it is one of the map's keys. -/
theorem find_isSome_iff_mem_keys (m : StdMap) (k : String) :
    (StdMap.find m k).isSome = true ↔ k ∈ StdMap.keys m := by
  induction m with
  | nil => simp [StdMap.find, StdMap.keys]
  | cons e rest ih =>
    obtain ⟨k', v'⟩ := e
    by_cases hk : k = k'
    · simp [StdMap.find, StdMap.keys, hk]
    · simp only [StdMap.keys] at ih
      simp [StdMap.find, StdMap.keys, hk, ih]

/-! ## Rows as pairs, stores as concatenations -/

/-- Rows of `executeQuery "plan1"` as the rows of the matching pairs. -/
theorem executeQuery_plan1_pairs (store : List Node) :
    executeQuery "plan1" store = (plan1Pairs store).map (fun p => makeRow p.1 p.2) := by
  rw [executeQuery_plan1_blocks]
  simp [plan1Pairs, List.map_flatten, Function.comp_def]

/-- Rows of `executeQuery "plan2"` as the rows of the matching pairs. -/
theorem executeQuery_plan2_pairs (store : List Node) :
    executeQuery "plan2" store = (plan2Pairs store).map (fun p => makeRow p.1 p.2) := by
  rw [executeQuery_plan2_blocks]
  simp [plan2Pairs, List.map_flatten, Function.comp_def]

/-- The result of `executeQuery` on two stores put one after the other. -/
theorem executeQuery_append_stores (plan : String) (s1 s2 : List Node) :
    executeQuery plan (s1 ++ s2) = executeQuery plan s1 ++ executeQuery plan s2 := by
  by_cases h1 : plan = "plan1"
  · subst h1
    simp only [executeQuery_plan1_blocks, List.map_append, List.flatten_append]
  · by_cases h2 : plan = "plan2"
    · subst h2
      simp only [executeQuery_plan2_blocks, List.map_append, List.flatten_append]
    · simp [executeQuery, h1, h2]

/-- The user total of a store is a function of its per-node counts. -/
theorem totalUsers_eq_of_counts (store : List Node) :
    totalUsers store = ((nodeCounts store).map Prod.fst).sum := by
  simp [totalUsers, nodeCounts, Function.comp_def]

/-- The order total of a store is a function of its per-node counts. -/
theorem totalOrders_eq_of_counts (store : List Node) :
    totalOrders store = ((nodeCounts store).map Prod.snd).sum := by
  simp [totalOrders, nodeCounts, Function.comp_def]

/-- A store whose nodes hold no users has user total zero. -/
theorem totalUsers_eq_zero (store : List Node) (h : ∀ node ∈ store, node.users = []) :
    totalUsers store = 0 := by
  induction store with
  | nil => rfl
  | cons node rest ih =>
    have hn : node.users = [] := h node (List.mem_cons_self _ _)
    have hr : totalUsers rest = 0 := ih (fun n hmem => h n (List.mem_cons_of_mem _ hmem))
    simp only [totalUsers, List.map_cons, List.sum_cons, hn, List.length_nil, Nat.zero_add]
    exact hr

/-- A store whose nodes hold no orders has order total zero. -/
theorem totalOrders_eq_zero (store : List Node) (h : ∀ node ∈ store, node.orders = []) :
    totalOrders store = 0 := by
  induction store with
  | nil => rfl
  | cons node rest ih =>
    have hn : node.orders = [] := h node (List.mem_cons_self _ _)
    have hr : totalOrders rest = 0 := ih (fun n hmem => h n (List.mem_cons_of_mem _ hmem))
    simp only [totalOrders, List.map_cons, List.sum_cons, hn, List.length_nil, Nat.zero_add]
    exact hr

/-- The result of `executeQuery` is the concatenation of its results on the
one-node stores. -/
theorem executeQuery_eq_flatten_nodes (plan : String) (store : List Node) :
    executeQuery plan store = (store.map (fun node => executeQuery plan [node])).flatten := by
  induction store with
  | nil =>
    by_cases h1 : plan = "plan1"
    · subst h1; rfl
    · by_cases h2 : plan = "plan2"
      · subst h2; rfl
      · simp [executeQuery, h1, h2]
  | cons node rest ih =>
    have h := executeQuery_append_stores plan [node] rest
    rw [List.singleton_append] at h
    rw [h, ih, List.map_cons, List.flatten_cons]

/-! ## Exchanging the two loops of the join -/

/-- Collecting one element per item passing a test is mapping over the filtered items. -/
theorem flatMap_if_singleton {α β : Type} (p : α → Bool) (g : α → β) (ys : List α) :
    ys.flatMap (fun y => if p y = true then [g y] else []) = (ys.filter p).map g := by
  induction ys with
  | nil => rfl
  | cons y ys ih =>
    cases hy : p y
    · simp [List.flatMap_cons, List.filter_cons, hy, ih]
    · simp [List.flatMap_cons, List.filter_cons, hy, ih]

/-- The matching pairs listed with the first list outside are a permutation of
the matching pairs listed with the second list outside. -/
theorem join_swap_perm {α β : Type} (r : α → β → Bool) (xs : List α) (ys : List β) :
    List.Perm
      (xs.flatMap (fun x => (ys.filter (fun y => r x y)).map (fun y => (x, y))))
      (ys.flatMap (fun y => (xs.filter (fun x => r x y)).map (fun x => (x, y)))) := by
  induction xs with
  | nil => simp
  | cons x xs ih =>
    have hsplit : (fun y => ((x :: xs).filter (fun x' => r x' y)).map (fun x' => (x', y)))
        = (fun y => (if r x y = true then [(x, y)] else [])
            ++ (xs.filter (fun x' => r x' y)).map (fun x' => (x', y))) := by
      funext y
      cases hxy : r x y
      · simp [List.filter_cons, hxy]
      · simp [List.filter_cons, hxy]
    rw [List.flatMap_cons, hsplit]
    refine List.Perm.trans ?_ (List.flatMap_append_perm ys _ _)
    rw [flatMap_if_singleton (fun y => r x y) (fun y => (x, y)) ys]
    exact List.Perm.append_left _ ih

/-- The `plan1` pairs of a node whose order has quantity above one are the
`plan1` pairs of the node with the other orders removed. -/
theorem plan1NodePairs_filter (node : Node) :
    (plan1NodePairs node).filter pairAboveOne
      = node.users.flatMap (fun u =>
          ((node.orders.filter (fun o => decide (o.quantity > 1))).filter
            (fun o => decide (u.user_id = o.user_id))).map (fun o => (u, o))) := by
  unfold plan1NodePairs
  rw [List.filter_flatten, List.map_map]
  show (node.users.map _).flatten = (node.users.map _).flatten
  congr 1
  apply List.map_congr_left
  intro u _
  simp only [Function.comp_def, List.filter_map, List.filter_filter, pairAboveOne]
  congr 1
  apply List.filter_congr
  intro o _
  exact Bool.and_comm _ _

/-- Per node, the `plan2` pairs are a permutation of the `plan1` pairs whose
order has quantity above one. -/
theorem plan2NodePairs_perm (node : Node) :
    List.Perm (plan2NodePairs node) ((plan1NodePairs node).filter pairAboveOne) := by
  rw [plan1NodePairs_filter]
  exact (join_swap_perm (fun (u : User) (o : Order) => decide (u.user_id = o.user_id))
    node.users (node.orders.filter (fun o => decide (o.quantity > 1)))).symm

/-- Over the store, the `plan2` pairs are a permutation of the `plan1` pairs
whose order has quantity above one. -/
theorem plan2Pairs_perm (store : List Node) :
    List.Perm (plan2Pairs store) ((plan1Pairs store).filter pairAboveOne) := by
  induction store with
  | nil => simp [plan2Pairs, plan1Pairs]
  | cons node rest ih =>
    have h1 : plan1Pairs (node :: rest) = plan1NodePairs node ++ plan1Pairs rest := by
      simp [plan1Pairs]
    have h2 : plan2Pairs (node :: rest) = plan2NodePairs node ++ plan2Pairs rest := by
      simp [plan2Pairs]
    rw [h1, h2, List.filter_append]
    exact List.Perm.append (plan2NodePairs_perm node) ih

/-- Per node, the `plan1` pairs are a permutation of the pairs listed order by
order, each order with its matching users. -/
theorem plan1NodePairs_perm_by_order (node : Node) :
    List.Perm (plan1NodePairs node)
      (node.orders.flatMap (fun o =>
        (node.users.filter (fun u => decide (u.user_id = o.user_id))).map (fun u => (u, o)))) :=
  join_swap_perm (fun (u : User) (o : Order) => decide (u.user_id = o.user_id))
    node.users node.orders

/-- Length of a concatenation of mapped blocks. -/
theorem length_flatMap_map {α β γ : Type} (ys : List α) (f : α → List β) (g : α → β → γ) :
    (ys.flatMap (fun y => (f y).map (g y))).length = (ys.map (fun y => (f y).length)).sum := by
  induction ys with
  | nil => rfl
  | cons y ys ih => simp [List.flatMap_cons, ih]

/-- The `plan1` rows of a node number the sum of its orders' contributions. -/
theorem plan1NodePairs_length (node : Node) :
    (plan1NodePairs node).length = (node.orders.map (rowsOfOrder node)).sum := by
  rw [(plan1NodePairs_perm_by_order node).length_eq]
  exact length_flatMap_map node.orders
    (fun o => node.users.filter (fun u => decide (u.user_id = o.user_id))) (fun o u => (u, o))

/-- The `plan2` rows of a node number the sum of the contributions of its
orders of quantity above one. -/
theorem plan2NodePairs_length (node : Node) :
    (plan2NodePairs node).length
      = ((node.orders.filter (fun o => decide (o.quantity > 1))).map (rowsOfOrder node)).sum := by
  exact length_flatMap_map (node.orders.filter (fun (o : Order) => decide (o.quantity > 1)))
    (fun (o : Order) => node.users.filter (fun (u : User) => decide (u.user_id = o.user_id)))
    (fun o u => (u, o))

/-- Among users with pairwise distinct identifiers at most one has a given identifier. -/
theorem filter_user_id_length_le_one (users : List User) (k : Int)
    (h : (users.map User.user_id).Nodup) :
    (users.filter (fun u => decide (u.user_id = k))).length ≤ 1 := by
  induction users with
  | nil => simp
  | cons u us ih =>
    rw [List.map_cons, List.nodup_cons] at h
    by_cases hk : u.user_id = k
    · have hnone : us.filter (fun u => decide (u.user_id = k)) = [] := by
        apply List.filter_eq_nil_iff.2
        intro v hv
        have hne : v.user_id ≠ k := by
          intro heq
          apply h.1
          rw [hk, ← heq]
          exact List.mem_map_of_mem _ hv
        simp [hne]
      simp [List.filter_cons, hk, hnone]
    · simp only [List.filter_cons, hk, decide_False, Bool.false_eq_true, if_false]
      exact ih h.2

/-- A sum of terms that are each at most one is at most the number of terms. -/
theorem sum_map_le_length {α : Type} (l : List α) (f : α → Nat) (h : ∀ a ∈ l, f a ≤ 1) :
    (l.map f).sum ≤ l.length := by
  induction l with
  | nil => simp
  | cons a l ih =>
    have ha := h a (List.mem_cons_self _ _)
    have hl := ih (fun b hb => h b (List.mem_cons_of_mem _ hb))
    simp only [List.map_cons, List.sum_cons, List.length_cons]
    omega

/-! ## The loops of `generateRandomData` -/

/-- Changing node `idx` of a list of nodes given by index, for an index in range. -/
theorem modifyNode_map_range' (G : Nat → Node) (f : Node → Node) (n s idx : Nat)
    (h : idx < n) :
    modifyNode ((List.range' s n).map G) idx f
      = .ok ((List.range' s n).map (fun j => if j = s + idx then f (G j) else G j)) := by
  induction n generalizing s idx with
  | zero => omega
  | succ n ih =>
    have htail : ∀ (t : Nat), (List.range' (s + 1) n).map
          (fun j => if j = s + 1 + t then f (G j) else G j)
        = (List.range' (s + 1) n).map (fun j => if j = s + (t + 1) then f (G j) else G j) := by
      intro t
      apply List.map_congr_left
      intro j _
      have : s + 1 + t = s + (t + 1) := by omega
      rw [this]
    cases idx with
    | zero =>
      have hrest : (List.range' (s + 1) n).map (fun j => if j = s then f (G j) else G j)
          = (List.range' (s + 1) n).map G := by
        apply List.map_congr_left
        intro j hj
        have hlt : s + 1 ≤ j := (List.mem_range'_1.1 hj).1
        have hne : ¬ j = s := by omega
        simp only [hne, if_false]
      simp only [List.range'_succ, List.map_cons, modifyNode, Nat.add_zero, if_true, hrest]
    | succ t =>
      have hne : ¬ s = s + (t + 1) := by omega
      simp only [List.range'_succ, List.map_cons, modifyNode, ih (s + 1) t (by omega), htail t,
        hne, if_false]

/-- Changing a node at an index in range succeeds and keeps the number of nodes. -/
theorem modifyNode_ok (nodes : List Node) (idx : Nat) (f : Node → Node)
    (h : idx < nodes.length) :
    ∃ nodes', modifyNode nodes idx f = .ok nodes' ∧ nodes'.length = nodes.length := by
  induction nodes generalizing idx with
  | nil => simp at h
  | cons node rest ih =>
    cases idx with
    | zero => exact ⟨f node :: rest, rfl, rfl⟩
    | succ t =>
      obtain ⟨rest', hr, hl⟩ := ih t (by simpa using h)
      exact ⟨node :: rest', by simp only [modifyNode, hr], by simp [hl]⟩

/-- Iterations over two lists of counter values run one after the other. -/
theorem runSteps_append (body : Int → GenState → Except Fault GenState)
    (ks ls : List Nat) (st : GenState) :
    runSteps body (ks ++ ls) st =
      match runSteps body ks st with
      | .error e => .error e
      | .ok st' => runSteps body ls st' := by
  induction ks generalizing st with
  | nil => rfl
  | cons k ks ih =>
    simp only [List.cons_append, runSteps]
    cases body (k : Int) st with
    | error e => rfl
    | ok st' => exact ih st'

/-- The node index of a record is below the number of nodes. -/
theorem nodeIndex_lt (n k : Nat) (hn : 0 < n) : nodeIndex n k < n :=
  Nat.mod_lt _ hn

/-- For counters below `2^64` the node index is the counter modulo the number of nodes. -/
theorem nodeIndex_eq_mod (n k : Nat) (hk : k < 2 ^ 64) : nodeIndex n k = k % n := by
  unfold nodeIndex intToSizeT
  have : (((k : Nat) : Int) % 2 ^ 64).toNat = k := by omega
  rw [this]

/-- One iteration of the user loop on nodes given by index. -/
theorem userStep_map_range (rand : Nat → Nat) (ord : OperandOrder) (G : Nat → Node) (n c k : Nat) (hn : 0 < n) :
    userStep rand ord ((k : Nat) : Int) ⟨(List.range n).map G, c⟩
      = .ok ⟨(List.range n).map
          (fun j => if j = nodeIndex n k then pushUser (userAt rand ord c k) (G j) else G j),
          c + 3⟩ := by
  have hlen : ((List.range n).map G).length = n := by simp
  have hne : ¬ n = 0 := by omega
  have hmod := modifyNode_map_range' G (pushUser (userAt rand ord c k)) n 0 (nodeIndex n k)
    (nodeIndex_lt n k hn)
  simp only [Nat.zero_add, ← List.range_eq_range'] at hmod
  simp only [userStep, generateRandomName, randCall, hlen, hne, if_false]
  rw [show intToSizeT ((k : Nat) : Int) % n = nodeIndex n k from rfl]
  exact (congrArg (fun r => match r with
    | Except.error e => Except.error e
    | Except.ok nodes => Except.ok (GenState.mk nodes (c + 1 + 1 + 1))) hmod)

/-- Remainder `r % n` of C++ for a non-negative `r`: the remainder of `r` by
the absolute value of `n`. -/
theorem tmod_natCast (r : Nat) (n : Int) :
    Int.tmod ((r : Nat) : Int) n = ((r % n.natAbs : Nat) : Int) := by
  cases n with
  | ofNat m => rfl
  | negSucc m => rfl

/-- The sum `1 + rand() % numUsers` stays within `int` when `numUsers` is not
`INT_MIN` or the value of `rand()` is below `INT_MAX`. -/
theorem reference_no_overflow (r : Nat) (numUsers : Int) (hu : numUsers ≠ 0)
    (hmax : numUsers < INT_MAX)
    (hno : INT_MIN < numUsers ∨ ((r : Nat) : Int) < INT_MAX) :
    ¬ INT_MAX < 1 + Int.tmod ((r : Nat) : Int) numUsers := by
  rw [tmod_natCast]
  have hpos : 0 < numUsers.natAbs := Int.natAbs_pos.2 hu
  have h1 : r % numUsers.natAbs ≤ r := Nat.mod_le _ _
  have h2 : r % numUsers.natAbs < numUsers.natAbs := Nat.mod_lt _ hpos
  generalize r % numUsers.natAbs = q at h1 h2
  unfold INT_MAX INT_MIN at *
  omega

/-- One iteration of the order loop on nodes given by index, when the
reference computed for the order stays within `int`. -/
theorem orderStep_map_range (rand : Nat → Nat) (numUsers : Int) (G : Nat → Node)
    (n c k : Nat) (hn : 0 < n) (hu : numUsers ≠ 0)
    (hov : ¬ INT_MAX < 1 + Int.tmod ((rand c : Nat) : Int) numUsers) :
    orderStep rand numUsers ((k : Nat) : Int) ⟨(List.range n).map G, c⟩
      = .ok ⟨(List.range n).map
          (fun j => if j = nodeIndex n k then pushOrder (orderAt rand numUsers c k) (G j)
            else G j),
          c + 3⟩ := by
  have hlen : ((List.range n).map G).length = n := by simp
  have hne : ¬ n = 0 := by omega
  have hmod := modifyNode_map_range' G (pushOrder (orderAt rand numUsers c k)) n 0
    (nodeIndex n k) (nodeIndex_lt n k hn)
  simp only [Nat.zero_add, ← List.range_eq_range'] at hmod
  simp only [orderStep, generateRandomProduct, randCall, hlen, hne, hu, hov, if_false]
  rw [show intToSizeT ((k : Nat) : Int) % n = nodeIndex n k from rfl]
  exact (congrArg (fun r => match r with
    | Except.error e => Except.error e
    | Except.ok nodes => Except.ok (GenState.mk nodes (c + 1 + 1 + 1))) hmod)

/-- An iteration of the order loop whose reference exceeds `INT_MAX` ends in a
signed overflow. -/
theorem orderStep_overflow (rand : Nat → Nat) (numUsers : Int) (i : Int) (st : GenState)
    (hu : numUsers ≠ 0)
    (hov : INT_MAX < 1 + Int.tmod ((rand st.calls : Nat) : Int) numUsers) :
    orderStep rand numUsers i st = .error .signedOverflow := by
  simp only [orderStep, randCall, hu, hov, if_false, if_true]

/-- The users on node `j` after one more iteration of the user loop. -/
theorem usersOn_succ (rand : Nat → Nat) (ord : OperandOrder) (n m j : Nat) :
    usersOn rand ord n (m + 1) j
      = usersOn rand ord n m j
        ++ (if nodeIndex n (m + 1) = j then [userAt rand ord (3 * m) (m + 1)] else []) := by
  have hk : 1 + 1 * m = m + 1 := by omega
  unfold usersOn
  rw [List.range'_concat, hk, List.filter_append, List.map_append]
  by_cases h : nodeIndex n (m + 1) = j
  · simp [List.filter_cons, h]
  · simp [List.filter_cons, h]

/-- The orders on node `j` after one more iteration of the order loop. -/
theorem ordersOn_succ (rand : Nat → Nat) (numUsers : Int) (c0 n p j : Nat) :
    ordersOn rand numUsers c0 n (p + 1) j
      = ordersOn rand numUsers c0 n p j
        ++ (if nodeIndex n (p + 1) = j then [orderAt rand numUsers (c0 + 3 * p) (p + 1)]
            else []) := by
  have hk : 1 + 1 * p = p + 1 := by omega
  unfold ordersOn
  rw [List.range'_concat, hk, List.filter_append, List.map_append]
  by_cases h : nodeIndex n (p + 1) = j
  · simp [List.filter_cons, h]
  · simp [List.filter_cons, h]

/-- The user loop on `n` empty nodes: after `m` iterations node `j` holds the
users `usersOn rand ord n m j` and no order, and `rand()` was called `3 * m` times. -/
theorem userLoop_closed (rand : Nat → Nat) (ord : OperandOrder) (n : Nat) (hn : 0 < n) (m : Nat) :
    runSteps (userStep rand ord) (List.range' 1 m)
        ⟨(List.range n).map (fun _ => (⟨[], []⟩ : Node)), 0⟩
      = .ok ⟨(List.range n).map (fun j => (⟨usersOn rand ord n m j, []⟩ : Node)), 3 * m⟩ := by
  induction m with
  | zero => simp [runSteps, usersOn]
  | succ m ih =>
    have hk : 1 + 1 * m = m + 1 := by omega
    rw [List.range'_concat, hk, runSteps_append, ih]
    simp only [runSteps]
    rw [userStep_map_range rand ord _ n (3 * m) (m + 1) hn]
    simp only
    congr 2
    · apply List.map_congr_left
      intro j _
      rw [usersOn_succ]
      by_cases h : j = nodeIndex n (m + 1)
      · simp [h, pushUser]
      · have h' : ¬ nodeIndex n (m + 1) = j := fun e => h e.symm
        simp [h, h', pushUser]

/-- The order loop on `n` nodes without orders: after `p` iterations node `j`
holds its users and the orders `ordersOn rand numUsers c0 n p j`, provided no
reference overflows. -/
theorem orderLoop_closed (rand : Nat → Nat) (numUsers : Int) (U : Nat → List User)
    (n c0 : Nat) (hn : 0 < n) (p : Nat)
    (hsafe : p = 0 ∨ (numUsers ≠ 0 ∧ numUsers < INT_MAX ∧
      (INT_MIN < numUsers ∨ ∀ k, ((rand k : Nat) : Int) < INT_MAX))) :
    runSteps (orderStep rand numUsers) (List.range' 1 p)
        ⟨(List.range n).map (fun j => (⟨U j, []⟩ : Node)), c0⟩
      = .ok ⟨(List.range n).map
          (fun j => (⟨U j, ordersOn rand numUsers c0 n p j⟩ : Node)), c0 + 3 * p⟩ := by
  induction p with
  | zero => simp [runSteps, ordersOn]
  | succ p ih =>
    have hs : numUsers ≠ 0 ∧ numUsers < INT_MAX ∧
        (INT_MIN < numUsers ∨ ∀ k, ((rand k : Nat) : Int) < INT_MAX) := by
      rcases hsafe with h | h
      · omega
      · exact h
    have hov : ¬ INT_MAX < 1 + Int.tmod ((rand (c0 + 3 * p) : Nat) : Int) numUsers :=
      reference_no_overflow _ numUsers hs.1 hs.2.1 (hs.2.2.imp id (fun h => h _))
    have hk : 1 + 1 * p = p + 1 := by omega
    rw [List.range'_concat, hk, runSteps_append, ih (Or.inr hs)]
    simp only [runSteps]
    rw [orderStep_map_range rand numUsers _ n (c0 + 3 * p) (p + 1) hn hs.1 hov]
    simp only
    congr 2
    · apply List.map_congr_left
      intro j _
      rw [ordersOn_succ]
      by_cases h : j = nodeIndex n (p + 1)
      · simp [h, pushOrder]
      · have h' : ¬ nodeIndex n (p + 1) = j := fun e => h e.symm
        simp [h, h', pushOrder]

/-- The order loop on `n` nodes without orders either ends in a fault or
leaves on node `j` its users and the orders `ordersOn rand numUsers c0 n p j`. -/
theorem orderLoop_outcome (rand : Nat → Nat) (numUsers : Int) (U : Nat → List User)
    (n c0 : Nat) (hn : 0 < n) (p : Nat) :
    runSteps (orderStep rand numUsers) (List.range' 1 p)
        ⟨(List.range n).map (fun j => (⟨U j, []⟩ : Node)), c0⟩
      = .ok ⟨(List.range n).map
          (fun j => (⟨U j, ordersOn rand numUsers c0 n p j⟩ : Node)), c0 + 3 * p⟩ ∨
    ∃ e, runSteps (orderStep rand numUsers) (List.range' 1 p)
        ⟨(List.range n).map (fun j => (⟨U j, []⟩ : Node)), c0⟩ = .error e := by
  induction p with
  | zero => left; simp [runSteps, ordersOn]
  | succ p ih =>
    have hk : 1 + 1 * p = p + 1 := by omega
    rw [List.range'_concat, hk, runSteps_append]
    rcases ih with ih | ⟨e, ih⟩
    · rw [ih]
      simp only [runSteps]
      by_cases hu : numUsers = 0
      · right
        exact ⟨.modulusByZero, by simp [orderStep, hu]⟩
      · by_cases hov : INT_MAX < 1 + Int.tmod ((rand (c0 + 3 * p) : Nat) : Int) numUsers
        · right
          refine ⟨.signedOverflow, ?_⟩
          rw [orderStep_overflow rand numUsers _ _ hu hov]
        · left
          rw [orderStep_map_range rand numUsers _ n (c0 + 3 * p) (p + 1) hn hu hov]
          simp only
          congr 2
          · apply List.map_congr_left
            intro j _
            rw [ordersOn_succ]
            by_cases h : j = nodeIndex n (p + 1)
            · simp [h, pushOrder]
            · have h' : ¬ nodeIndex n (p + 1) = j := fun e => h e.symm
              simp [h, h', pushOrder]
    · right
      exact ⟨e, by rw [ih]⟩

/-- A list of nodes that are all empty is the list of that many empty nodes. -/
theorem empty_nodes_eq_map_range (nodes : List Node)
    (hempty : ∀ node ∈ nodes, node.users = [] ∧ node.orders = []) :
    nodes = (List.range nodes.length).map (fun _ => (⟨[], []⟩ : Node)) := by
  induction nodes with
  | nil => rfl
  | cons node rest ih =>
    have hn := hempty node (List.mem_cons_self _ _)
    have hr := ih (fun x hx => hempty x (List.mem_cons_of_mem _ hx))
    have hnode : node = ⟨[], []⟩ := by
      cases node
      simp only [Node.mk.injEq]
      exact hn
    rw [List.length_cons, List.range_succ_eq_map, List.map_cons, List.map_map]
    rw [hnode]
    congr 1

/-- On a non-empty list of empty nodes, with counts below `INT_MAX` and, when
an order is requested, `numUsers` not zero and no reference overflowing,
`generateRandomData` returns the nodes of the closed form. -/
theorem generateRandomData_closed (rand : Nat → Nat) (ord : OperandOrder) (nodes : List Node)
    (numUsers numOrders : Int) (hne : nodes ≠ [])
    (hempty : ∀ node ∈ nodes, node.users = [] ∧ node.orders = [])
    (hU : numUsers < INT_MAX) (hO : numOrders < INT_MAX)
    (hsafe : numOrders ≤ 0 ∨ (numUsers ≠ 0 ∧
      (INT_MIN < numUsers ∨ ∀ k, ((rand k : Nat) : Int) < INT_MAX))) :
    generateRandomData rand ord nodes numUsers numOrders
      = .ok (generatedNodes rand ord nodes.length numUsers numOrders) := by
  have hn : 0 < nodes.length := List.length_pos.2 hne
  have hU' : ¬ INT_MAX ≤ numUsers := by omega
  have hO' : ¬ INT_MAX ≤ numOrders := by omega
  have hsafe' : numOrders.toNat = 0 ∨ (numUsers ≠ 0 ∧ numUsers < INT_MAX ∧
      (INT_MIN < numUsers ∨ ∀ k, ((rand k : Nat) : Int) < INT_MAX)) := by
    rcases hsafe with h | h
    · left; omega
    · right; exact ⟨h.1, hU, h.2⟩
  have hstart : (⟨nodes, 0⟩ : GenState)
      = ⟨(List.range nodes.length).map (fun _ => (⟨[], []⟩ : Node)), 0⟩ := by
    rw [← empty_nodes_eq_map_range nodes hempty]
  unfold generateRandomData countingLoop
  rw [hstart, userLoop_closed rand ord nodes.length hn numUsers.toNat]
  simp only [hU', if_false]
  rw [orderLoop_closed rand numUsers (fun j => usersOn rand ord nodes.length numUsers.toNat j)
    nodes.length (3 * numUsers.toNat) hn numOrders.toNat hsafe']
  simp only [hO', if_false, generatedNodes]

/-- Whenever `generateRandomData` completes on a non-empty list of empty nodes,
both counts are below `INT_MAX` and the nodes it returns are those of the
closed form. -/
theorem generateRandomData_ok_closed (rand : Nat → Nat) (ord : OperandOrder)
    (nodes : List Node) (numUsers numOrders : Int) (store : List Node) (hne : nodes ≠ [])
    (hempty : ∀ node ∈ nodes, node.users = [] ∧ node.orders = [])
    (hok : generateRandomData rand ord nodes numUsers numOrders = .ok store) :
    store = generatedNodes rand ord nodes.length numUsers numOrders ∧
    numUsers < INT_MAX ∧ numOrders < INT_MAX := by
  have hn : 0 < nodes.length := List.length_pos.2 hne
  have hstart : (⟨nodes, 0⟩ : GenState)
      = ⟨(List.range nodes.length).map (fun _ => (⟨[], []⟩ : Node)), 0⟩ := by
    rw [← empty_nodes_eq_map_range nodes hempty]
  unfold generateRandomData countingLoop at hok
  rw [hstart, userLoop_closed rand ord nodes.length hn numUsers.toNat] at hok
  by_cases hU : INT_MAX ≤ numUsers
  · simp only [hU, if_true] at hok
    cases hok
  · simp only [hU, if_false] at hok
    rcases orderLoop_outcome rand numUsers
        (fun j => usersOn rand ord nodes.length numUsers.toNat j)
        nodes.length (3 * numUsers.toNat) hn numOrders.toNat with h | ⟨e, h⟩
    · rw [h] at hok
      by_cases hO : INT_MAX ≤ numOrders
      · simp only [hO, if_true] at hok
        cases hok
      · simp only [hO, if_false] at hok
        refine ⟨?_, by omega, by omega⟩
        cases hok
        rfl
    · rw [h] at hok
      cases hok

/-! ## What the generated store holds -/

/-- One block per index, all empty except the block of `k0`. -/
theorem flatMap_range_indicator {α : Type} (n k0 : Nat) (a : α) :
    (List.range n).flatMap (fun j => if k0 = j then [a] else [])
      = if k0 < n then [a] else [] := by
  induction n with
  | zero => simp
  | succ n ih =>
    rw [List.range_succ, List.flatMap_append, ih]
    by_cases h1 : k0 < n
    · have h2 : ¬ k0 = n := by omega
      have h3 : k0 < n + 1 := by omega
      simp [h1, h2, h3]
    · by_cases h2 : k0 = n
      · have h3 : k0 < n + 1 := by omega
        simp [h1, h2]
      · have h3 : ¬ k0 < n + 1 := by omega
        simp [h1, h2, h3]

/-- Sorting the items of a list into classes and concatenating the classes
permutes the list. -/
theorem classes_perm (l : List Nat) (c : Nat → Nat) (n : Nat) (h : ∀ k ∈ l, c k < n) :
    List.Perm ((List.range n).flatMap (fun j => l.filter (fun k => decide (c k = j)))) l := by
  induction l with
  | nil => simp
  | cons a l ih =>
    have ha : c a < n := h a (List.mem_cons_self _ _)
    have hl := ih (fun k hk => h k (List.mem_cons_of_mem _ hk))
    have hsplit : (fun j => (a :: l).filter (fun k => decide (c k = j)))
        = (fun j => (if c a = j then [a] else []) ++ l.filter (fun k => decide (c k = j))) := by
      funext j
      by_cases hj : c a = j
      · simp [List.filter_cons, hj]
      · simp [List.filter_cons, hj]
    rw [hsplit]
    refine List.Perm.trans (List.flatMap_append_perm _ _ _).symm ?_
    rw [flatMap_range_indicator n (c a) a]
    simp only [ha, if_true, List.singleton_append]
    exact List.Perm.cons a hl

/-- The users of the generated store are, up to order, the users built for
the counters `1..numUsers`. -/
theorem allUsers_generated_perm (rand : Nat → Nat) (ord : OperandOrder) (n : Nat) (hn : 0 < n)
    (numUsers numOrders : Int) :
    List.Perm (allUsers (generatedNodes rand ord n numUsers numOrders))
      ((List.range' 1 numUsers.toNat).map (fun k => userAt rand ord (3 * (k - 1)) k)) := by
  have hflat : allUsers (generatedNodes rand ord n numUsers numOrders)
      = ((List.range n).flatMap (fun j =>
          (List.range' 1 numUsers.toNat).filter (fun k => decide (nodeIndex n k = j)))).map
          (fun k => userAt rand ord (3 * (k - 1)) k) := by
    simp only [allUsers, generatedNodes, usersOn, List.flatMap, List.map_map, List.map_flatten,
      Function.comp_def]
  rw [hflat]
  exact (classes_perm _ (nodeIndex n) n (fun k _ => nodeIndex_lt n k hn)).map _

/-- The orders of the generated store are, up to order, the orders built for
the counters `1..numOrders`. -/
theorem allOrders_generated_perm (rand : Nat → Nat) (ord : OperandOrder) (n : Nat) (hn : 0 < n)
    (numUsers numOrders : Int) :
    List.Perm (allOrders (generatedNodes rand ord n numUsers numOrders))
      ((List.range' 1 numOrders.toNat).map
        (fun k => orderAt rand numUsers (3 * numUsers.toNat + 3 * (k - 1)) k)) := by
  have hflat : allOrders (generatedNodes rand ord n numUsers numOrders)
      = ((List.range n).flatMap (fun j =>
          (List.range' 1 numOrders.toNat).filter (fun k => decide (nodeIndex n k = j)))).map
          (fun k => orderAt rand numUsers (3 * numUsers.toNat + 3 * (k - 1)) k) := by
    simp only [allOrders, generatedNodes, ordersOn, List.flatMap, List.map_map, List.map_flatten,
      Function.comp_def]
  rw [hflat]
  exact (classes_perm _ (nodeIndex n) n (fun k _ => nodeIndex_lt n k hn)).map _

/-- The user total of a store is the number of its users. -/
theorem totalUsers_eq_length (store : List Node) : totalUsers store = (allUsers store).length := by
  simp [totalUsers, allUsers, List.flatMap, List.length_flatten, Function.comp_def]

/-- The order total of a store is the number of its orders. -/
theorem totalOrders_eq_length (store : List Node) :
    totalOrders store = (allOrders store).length := by
  simp [totalOrders, allOrders, List.flatMap, List.length_flatten, Function.comp_def]

/-- A non-negative value modulo fifty, plus eighteen, is between 18 and 67. -/
theorem age_bounds (r : Nat) :
    18 ≤ 18 + Int.tmod ((r : Nat) : Int) 50 ∧ 18 + Int.tmod ((r : Nat) : Int) 50 ≤ 67 := by
  have h1 := Int.tmod_nonneg (50 : Int) (Int.ofNat_nonneg r)
  have h2 := Int.tmod_lt_of_pos ((r : Nat) : Int) (show (0 : Int) < 50 by decide)
  omega

/-- A non-negative value modulo five, plus one, is between 1 and 5. -/
theorem quantity_bounds (r : Nat) :
    1 ≤ 1 + Int.tmod ((r : Nat) : Int) 5 ∧ 1 + Int.tmod ((r : Nat) : Int) 5 ≤ 5 := by
  have h1 := Int.tmod_nonneg (5 : Int) (Int.ofNat_nonneg r)
  have h2 := Int.tmod_lt_of_pos ((r : Nat) : Int) (show (0 : Int) < 5 by decide)
  omega

/-- A non-negative value modulo a positive `numUsers`, plus one, is between 1
and `numUsers`. -/
theorem reference_bounds (r : Nat) (numUsers : Int) (h : 1 ≤ numUsers) :
    1 ≤ 1 + Int.tmod ((r : Nat) : Int) numUsers ∧
    1 + Int.tmod ((r : Nat) : Int) numUsers ≤ numUsers := by
  have h1 := Int.tmod_nonneg numUsers (Int.ofNat_nonneg r)
  have h2 := Int.tmod_lt_of_pos ((r : Nat) : Int) (show (0 : Int) < numUsers by omega)
  omega

/-! ## When `generateRandomData` completes -/

/-- On a non-empty list of nodes an iteration of the user loop completes and
keeps the number of nodes. -/
theorem userStep_ok (rand : Nat → Nat) (ord : OperandOrder) (i : Int) (st : GenState) (h : 0 < st.nodes.length) :
    ∃ st', userStep rand ord i st = .ok st' ∧ st'.nodes.length = st.nodes.length := by
  have hne : ¬ st.nodes.length = 0 := by omega
  obtain ⟨nodes', hm, hl⟩ := modifyNode_ok st.nodes (intToSizeT i % st.nodes.length)
    (pushUser ⟨i, (generateRandomName rand ord st).1,
      18 + Int.tmod (randCall rand (generateRandomName rand ord st).2).1 50⟩)
    (Nat.mod_lt _ h)
  refine ⟨⟨nodes', st.calls + 1 + 1 + 1⟩, ?_, hl⟩
  simp only [userStep, generateRandomName, randCall, hne, if_false] at hm ⊢
  rw [hm]

/-- On an empty list of nodes an iteration of the user loop faults at the modulus. -/
theorem userStep_error (rand : Nat → Nat) (ord : OperandOrder) (i : Int) (st : GenState) (h : st.nodes = []) :
    userStep rand ord i st = .error .modulusByZero := by
  simp [userStep, generateRandomName, randCall, h]

/-- On a non-empty list of nodes, with `numUsers` not zero and no overflow of
the reference, an iteration of the order loop completes and keeps the number of
nodes. -/
theorem orderStep_ok (rand : Nat → Nat) (numUsers : Int) (i : Int) (st : GenState)
    (hu : numUsers ≠ 0) (hmax : numUsers < INT_MAX)
    (hno : INT_MIN < numUsers ∨ ∀ k, ((rand k : Nat) : Int) < INT_MAX)
    (h : 0 < st.nodes.length) :
    ∃ st', orderStep rand numUsers i st = .ok st' ∧ st'.nodes.length = st.nodes.length := by
  have hne : ¬ st.nodes.length = 0 := by omega
  have hov : ¬ INT_MAX < 1 + Int.tmod ((rand st.calls : Nat) : Int) numUsers :=
    reference_no_overflow _ numUsers hu hmax (hno.imp id (fun h => h _))
  obtain ⟨nodes', hm, hl⟩ := modifyNode_ok st.nodes (intToSizeT i % st.nodes.length)
    (pushOrder ⟨i, 1 + Int.tmod (randCall rand st).1 numUsers,
      (generateRandomProduct rand (randCall rand st).2).1,
      1 + Int.tmod (randCall rand (generateRandomProduct rand (randCall rand st).2).2).1 5⟩)
    (Nat.mod_lt _ h)
  refine ⟨⟨nodes', st.calls + 1 + 1 + 1⟩, ?_, hl⟩
  simp only [orderStep, generateRandomProduct, randCall, hne, hu, hov, if_false] at hm ⊢
  rw [hm]

/-- With `numUsers` zero an iteration of the order loop faults at
`rand() % numUsers`. -/
theorem orderStep_error_zero (rand : Nat → Nat) (i : Int) (st : GenState) :
    orderStep rand 0 i st = .error .modulusByZero := by
  simp [orderStep]

/-- On an empty list of nodes, with `numUsers` not zero and no overflow of the
reference, an iteration of the order loop faults at `i % nodes.size()`. -/
theorem orderStep_error_empty (rand : Nat → Nat) (numUsers : Int) (i : Int) (st : GenState)
    (hu : numUsers ≠ 0) (hmax : numUsers < INT_MAX)
    (hno : INT_MIN < numUsers ∨ ∀ k, ((rand k : Nat) : Int) < INT_MAX)
    (hn : st.nodes = []) :
    orderStep rand numUsers i st = .error .modulusByZero := by
  have hov : ¬ INT_MAX < 1 + Int.tmod ((rand st.calls : Nat) : Int) numUsers :=
    reference_no_overflow _ numUsers hu hmax (hno.imp id (fun h => h _))
  simp only [orderStep, generateRandomProduct, randCall, hu, hov, hn, if_false,
    List.length_nil, if_true]

/-- Iterations whose body completes on non-empty node lists and keeps the
number of nodes complete, keeping the number of nodes. -/
theorem runSteps_ok (body : Int → GenState → Except Fault GenState)
    (hbody : ∀ (i : Int) (st : GenState), 0 < st.nodes.length →
      ∃ st', body i st = .ok st' ∧ st'.nodes.length = st.nodes.length)
    (ks : List Nat) (st : GenState) (h : 0 < st.nodes.length) :
    ∃ st', runSteps body ks st = .ok st' ∧ st'.nodes.length = st.nodes.length := by
  induction ks generalizing st with
  | nil => exact ⟨st, rfl, rfl⟩
  | cons k ks ih =>
    obtain ⟨st1, h1, hl1⟩ := hbody (k : Int) st h
    obtain ⟨st2, h2, hl2⟩ := ih st1 (by omega)
    refine ⟨st2, ?_, by omega⟩
    simp only [runSteps, h1, h2]

/-- A counting loop with a bound below one runs no iteration. -/
theorem countingLoop_skip (bound : Int) (body : Int → GenState → Except Fault GenState)
    (st : GenState) (h : bound ≤ 0) : countingLoop bound body st = .ok st := by
  have h0 : bound.toNat = 0 := by omega
  have hmax : ¬ INT_MAX ≤ bound := by unfold INT_MAX; omega
  simp [countingLoop, h0, runSteps, hmax]

/-- A counting loop with a bound of at least one whose first iteration faults
ends with that fault. -/
theorem countingLoop_first_error (bound : Int)
    (body : Int → GenState → Except Fault GenState) (st : GenState) (e : Fault)
    (h : 1 ≤ bound) (hfirst : body 1 st = .error e) :
    countingLoop bound body st = .error e := by
  obtain ⟨t, ht⟩ : ∃ t, bound.toNat = t + 1 := ⟨bound.toNat - 1, by omega⟩
  have h1 : body ((1 : Nat) : Int) st = .error e := hfirst
  simp only [countingLoop, ht, List.range'_succ, runSteps, h1]

/-- A counting loop with a bound below `INT_MAX` whose body completes on
non-empty node lists completes, keeping the number of nodes. -/
theorem countingLoop_ok (bound : Int) (body : Int → GenState → Except Fault GenState)
    (hbody : ∀ (i : Int) (st : GenState), 0 < st.nodes.length →
      ∃ st', body i st = .ok st' ∧ st'.nodes.length = st.nodes.length)
    (st : GenState) (hb : bound < INT_MAX) (h : 0 < st.nodes.length) :
    ∃ st', countingLoop bound body st = .ok st' ∧ st'.nodes.length = st.nodes.length := by
  obtain ⟨st', hr, hl⟩ := runSteps_ok body hbody (List.range' 1 bound.toNat) st h
  have hmax : ¬ INT_MAX ≤ bound := by omega
  exact ⟨st', by simp only [countingLoop, hr, hmax, if_false], hl⟩

/-- Outcome of `generateRandomData` for counts below `INT_MAX` when no
reference can overflow: it completes when no iteration meets an empty node
list or a zero `numUsers`, and faults at a modulus by zero otherwise. -/
theorem generateRandomData_outcome (rand : Nat → Nat) (ord : OperandOrder) (nodes : List Node)
    (numUsers numOrders : Int) (hU : numUsers < INT_MAX) (hO : numOrders < INT_MAX)
    (hno : INT_MIN < numUsers ∨ ∀ k, ((rand k : Nat) : Int) < INT_MAX) :
    (((numUsers ≤ 0 ∨ nodes ≠ []) ∧ (numOrders ≤ 0 ∨ (numUsers ≠ 0 ∧ nodes ≠ []))) →
      ∃ store, generateRandomData rand ord nodes numUsers numOrders = .ok store) ∧
    (¬ ((numUsers ≤ 0 ∨ nodes ≠ []) ∧ (numOrders ≤ 0 ∨ (numUsers ≠ 0 ∧ nodes ≠ []))) →
      generateRandomData rand ord nodes numUsers numOrders = .error .modulusByZero) := by
  by_cases hnodes : nodes = []
  · subst hnodes
    by_cases hu : numUsers ≤ 0
    · have h1 := countingLoop_skip numUsers (userStep rand ord) ⟨[], 0⟩ hu
      by_cases ho : numOrders ≤ 0
      · have h2 := countingLoop_skip numOrders (orderStep rand numUsers) ⟨[], 0⟩ ho
        refine ⟨fun _ => ⟨[], ?_⟩, fun hc => absurd ⟨Or.inl hu, Or.inl ho⟩ hc⟩
        simp only [generateRandomData, h1, h2]
      · have hfirst : orderStep rand numUsers 1 ⟨[], 0⟩ = .error .modulusByZero := by
          by_cases hz : numUsers = 0
          · rw [hz]
            exact orderStep_error_zero rand 1 ⟨[], 0⟩
          · exact orderStep_error_empty rand numUsers 1 ⟨[], 0⟩ hz hU hno rfl
        have h2 := countingLoop_first_error numOrders (orderStep rand numUsers) ⟨[], 0⟩
          .modulusByZero (by omega) hfirst
        refine ⟨fun hc => ?_, fun _ => ?_⟩
        · rcases hc.2 with h | h
          · exact absurd h ho
          · exact absurd rfl h.2
        · simp only [generateRandomData, h1, h2]
    · have h1 := countingLoop_first_error numUsers (userStep rand ord) ⟨[], 0⟩
        .modulusByZero (by omega) (userStep_error rand ord 1 ⟨[], 0⟩ rfl)
      refine ⟨fun hc => ?_, fun _ => ?_⟩
      · rcases hc.1 with h | h
        · exact absurd h hu
        · exact absurd rfl h
      · simp only [generateRandomData, h1]
  · have hlen : 0 < nodes.length := List.length_pos.2 hnodes
    obtain ⟨st1, h1, hl1⟩ := countingLoop_ok numUsers (userStep rand ord)
      (fun i st h => userStep_ok rand ord i st h) ⟨nodes, 0⟩ hU hlen
    have hl1' : 0 < st1.nodes.length := by
      rw [hl1]
      exact hlen
    by_cases ho : numOrders ≤ 0
    · have h2 := countingLoop_skip numOrders (orderStep rand numUsers) st1 ho
      refine ⟨fun _ => ⟨st1.nodes, ?_⟩, fun hc => absurd ⟨Or.inr hnodes, Or.inl ho⟩ hc⟩
      simp only [generateRandomData, h1, h2]
    · by_cases hu : numUsers = 0
      · have hfirst : orderStep rand numUsers 1 st1 = .error .modulusByZero := by
          rw [hu]
          exact orderStep_error_zero rand 1 st1
        have h2 := countingLoop_first_error numOrders (orderStep rand numUsers) st1
          .modulusByZero (by omega) hfirst
        refine ⟨fun hc => ?_, fun _ => ?_⟩
        · rcases hc.2 with h | h
          · exact absurd h ho
          · exact absurd hu h.1
        · simp only [generateRandomData, h1, h2]
      · obtain ⟨st2, h2, _⟩ := countingLoop_ok numOrders (orderStep rand numUsers)
          (fun i st h => orderStep_ok rand numUsers i st hu hU hno h) st1 hO hl1'
        refine ⟨fun _ => ⟨st2.nodes, ?_⟩,
          fun hc => absurd ⟨Or.inr hnodes, Or.inr ⟨hu, hnodes⟩⟩ hc⟩
        simp only [generateRandomData, h1, h2]

/-- Identifiers of the users on node `j`: the counters of `1..m` that are `j`
modulo the number of nodes, in increasing order. -/
theorem usersOn_ids (rand : Nat → Nat) (ord : OperandOrder) (n m j : Nat) (hm : m < 2 ^ 64) :
    (usersOn rand ord n m j).map User.user_id
      = ((List.range' 1 m).filter (fun k => decide (k % n = j))).map
          (fun k => ((k : Nat) : Int)) := by
  have hfilter : (List.range' 1 m).filter (fun k => decide (nodeIndex n k = j))
      = (List.range' 1 m).filter (fun k => decide (k % n = j)) := by
    apply List.filter_congr
    intro k hk
    have hk' : k < 2 ^ 64 := by
      have := (List.mem_range'_1.1 hk).2
      omega
    rw [nodeIndex_eq_mod n k hk']
  unfold usersOn
  rw [hfilter, List.map_map]
  rfl

/-- Identifiers of the orders on node `j`: the counters of `1..p` that are `j`
modulo the number of nodes, in increasing order. -/
theorem ordersOn_ids (rand : Nat → Nat) (numUsers : Int) (c0 n p j : Nat) (hp : p < 2 ^ 64) :
    (ordersOn rand numUsers c0 n p j).map Order.order_id
      = ((List.range' 1 p).filter (fun k => decide (k % n = j))).map
          (fun k => ((k : Nat) : Int)) := by
  have hfilter : (List.range' 1 p).filter (fun k => decide (nodeIndex n k = j))
      = (List.range' 1 p).filter (fun k => decide (k % n = j)) := by
    apply List.filter_congr
    intro k hk
    have hk' : k < 2 ^ 64 := by
      have := (List.mem_range'_1.1 hk).2
      omega
    rw [nodeIndex_eq_mod n k hk']
  unfold ordersOn
  rw [hfilter, List.map_map]
  rfl

/-- Costs of the generated store: the numbers of iterations of the two loops. -/
theorem estimateCost_generated (rand : Nat → Nat) (ord : OperandOrder) (n : Nat) (hn : 0 < n)
    (numUsers numOrders : Int) (hU : numUsers < INT_MAX) (hO : numOrders < INT_MAX) :
    (QueryOptimizer.mk (generatedNodes rand ord n numUsers numOrders)).estimateCost "plan1"
      = ((numUsers.toNat : Nat) : Int) ∧
    (QueryOptimizer.mk (generatedNodes rand ord n numUsers numOrders)).estimateCost "plan2"
      = ((numOrders.toNat : Nat) : Int) := by
  have hu : totalUsers (generatedNodes rand ord n numUsers numOrders) = numUsers.toNat := by
    rw [totalUsers_eq_length, (allUsers_generated_perm rand ord n hn numUsers numOrders).length_eq]
    simp
  have ho : totalOrders (generatedNodes rand ord n numUsers numOrders) = numOrders.toNat := by
    rw [totalOrders_eq_length, (allOrders_generated_perm rand ord n hn numUsers numOrders).length_eq]
    simp
  unfold INT_MAX at hU hO
  constructor
  · rw [estimateCost_plan1_wrapped]
    show sizeTToInt (totalUsers (generatedNodes rand ord n numUsers numOrders)) = _
    rw [hu]
    exact sizeTToInt_of_le _ (by unfold INT_MAX; omega)
  · rw [estimateCost_plan2_wrapped]
    show sizeTToInt (totalOrders (generatedNodes rand ord n numUsers numOrders)) = _
    rw [ho]
    exact sizeTToInt_of_le _ (by unfold INT_MAX; omega)

/-- Record counts of the nodes of the generated store. -/
theorem generatedNodes_counts (rand : Nat → Nat) (ord : OperandOrder) (n : Nat) (numUsers numOrders : Int) :
    ∀ node ∈ generatedNodes rand ord n numUsers numOrders,
      ∃ j < n, node.users.length = landingCount n numUsers.toNat j ∧
        node.orders.length = landingCount n numOrders.toNat j := by
  intro node hnode
  obtain ⟨j, hj, rfl⟩ := List.mem_map.1 hnode
  refine ⟨j, List.mem_range.1 hj, ?_, ?_⟩
  · simp [usersOn, landingCount]
  · simp [ordersOn, landingCount]

/-- With four nodes, each node receives 25 of 100 records and 50 of 200. -/
theorem landingCount_main (j : Nat) (hj : j < 4) :
    landingCount 4 100 j = 25 ∧ landingCount 4 200 j = 50 := by
  interval_cases j <;> exact ⟨by decide, by decide⟩

/-! ## Claims -/

/-- C1: for every store, `executeQuery "plan1"` is the reference list: one row
per matching (user, order) pair of the same node, ordered by node, then user,
then order. -/
theorem executeQuery_plan1_eq_reference (store : List Node) :
    executeQuery "plan1" store = plan1Reference store := by
  rw [executeQuery_plan1_blocks]
  simp [plan1Reference, plan1Pairs, List.map_flatten, Function.comp_def]

/-- C2: for every store, `executeQuery "plan2"` is the reference list: one row
per matching pair whose order has quantity above one, ordered by node, then
order, then user. -/
theorem executeQuery_plan2_eq_reference (store : List Node) :
    executeQuery "plan2" store = plan2Reference store := by
  rw [executeQuery_plan2_blocks]
  simp [plan2Reference, plan2Pairs, List.map_flatten, Function.comp_def]

/-- C3 (as stated, refuted): on a store whose single node holds `2^31` users
the counting loop of `estimateCost "plan1"` ends at `-2^31`, which is not the
sum of the per-node user counts, `2^31`. -/
theorem estimateCost_plan1_not_sum_counterexample :
    totalUsers overflowStore = 2147483648 ∧
    (QueryOptimizer.mk overflowStore).estimateCost "plan1" = -2147483648 ∧
    (QueryOptimizer.mk overflowStore).estimateCost "plan1" ≠ (totalUsers overflowStore : Int) := by
  have ht : totalUsers overflowStore = 2147483648 := by
    simp only [totalUsers, overflowStore, List.map_cons, List.map_nil, List.sum_cons,
      List.sum_nil, List.length_replicate, Nat.add_zero]
  have hc : (QueryOptimizer.mk overflowStore).estimateCost "plan1" = -2147483648 := by
    rw [estimateCost_plan1_wrapped, ht]
    decide
  refine ⟨ht, hc, ?_⟩
  rw [hc, ht]
  decide

/-- C3 (amended): `estimateCost "plan1"` is the sum of the per-node user counts
and `estimateCost "plan2"` the sum of the per-node order counts whenever that
sum does not exceed `INT_MAX`; in general each is the sum reduced modulo `2^32`
into the range of a 32-bit `int`. -/
theorem estimateCost_eq_sum_of_le_INT_MAX (q : QueryOptimizer) :
    (((totalUsers q.nodes : Nat) : Int) ≤ INT_MAX →
        q.estimateCost "plan1" = (totalUsers q.nodes : Int)) ∧
    (((totalOrders q.nodes : Nat) : Int) ≤ INT_MAX →
        q.estimateCost "plan2" = (totalOrders q.nodes : Int)) ∧
    q.estimateCost "plan1" = sizeTToInt (totalUsers q.nodes) ∧
    q.estimateCost "plan2" = sizeTToInt (totalOrders q.nodes) := by
  refine ⟨fun h => ?_, fun h => ?_, estimateCost_plan1_wrapped q, estimateCost_plan2_wrapped q⟩
  · rw [estimateCost_plan1_wrapped, sizeTToInt_of_le _ h]
  · rw [estimateCost_plan2_wrapped, sizeTToInt_of_le _ h]

/-- Witness for C3 (amended): a two-node store with three users and two orders. -/
theorem estimateCost_eq_sum_of_le_INT_MAX_witness :
    (QueryOptimizer.mk [⟨[⟨1, "Ann", 30⟩, ⟨2, "Bob", 41⟩], [⟨1, 1, "Pen", 1⟩]⟩,
        ⟨[⟨3, "Eve", 25⟩], [⟨2, 3, "Ink", 4⟩]⟩]).estimateCost "plan1" = 3 ∧
    (QueryOptimizer.mk [⟨[⟨1, "Ann", 30⟩, ⟨2, "Bob", 41⟩], [⟨1, 1, "Pen", 1⟩]⟩,
        ⟨[⟨3, "Eve", 25⟩], [⟨2, 3, "Ink", 4⟩]⟩]).estimateCost "plan2" = 2 :=
  ⟨(estimateCost_eq_sum_of_le_INT_MAX _).1 (by decide),
   (estimateCost_eq_sum_of_le_INT_MAX _).2.1 (by decide)⟩

/-- C4: `optimizeQuery` returns `"plan1"` exactly when the cost of `plan1` is
strictly below the cost of `plan2`; otherwise, ties included, it returns
`"plan2"`; it returns no other identifier. -/
theorem optimizeQuery_plan_choice (q : QueryOptimizer) (query : String) :
    ((q.optimizeQuery query).1 = "plan1" ↔ q.estimateCost "plan1" < q.estimateCost "plan2") ∧
    ((q.optimizeQuery query).1 = "plan2" ↔ ¬ q.estimateCost "plan1" < q.estimateCost "plan2") ∧
    (q.estimateCost "plan1" = q.estimateCost "plan2" → (q.optimizeQuery query).1 = "plan2") ∧
    ((q.optimizeQuery query).1 = "plan1" ∨ (q.optimizeQuery query).1 = "plan2") := by
  have hne : ("plan2" = "plan1") = False := by decide
  have hne2 : ("plan1" = "plan2") = False := by decide
  by_cases h : q.estimateCost "plan1" < q.estimateCost "plan2"
  · simp [QueryOptimizer.optimizeQuery, h, hne2]
    omega
  · simp [QueryOptimizer.optimizeQuery, h, hne]

/-- Witness for C4: one node with one user and one order, a tie, gives `"plan2"`. -/
theorem optimizeQuery_plan_choice_witness :
    ((QueryOptimizer.mk [⟨[⟨1, "Ann", 30⟩], [⟨1, 1, "Pen", 2⟩]⟩]).optimizeQuery "").1 = "plan2" :=
  (optimizeQuery_plan_choice (QueryOptimizer.mk [⟨[⟨1, "Ann", 30⟩], [⟨1, 1, "Pen", 2⟩]⟩]) "").2.2.1
    (by decide)

/-- C5: the cost returned by `optimizeQuery` is the cost `estimateCost` gives
for the returned plan, and it is the minimum of the two plan costs. -/
theorem optimizeQuery_cost_is_min (q : QueryOptimizer) (query : String) :
    (q.optimizeQuery query).2 = q.estimateCost (q.optimizeQuery query).1 ∧
    (q.optimizeQuery query).2 = min (q.estimateCost "plan1") (q.estimateCost "plan2") := by
  by_cases h : q.estimateCost "plan1" < q.estimateCost "plan2"
  · simp [QueryOptimizer.optimizeQuery, h]
    omega
  · simp [QueryOptimizer.optimizeQuery, h]
    omega

/-- C6: for every plan identifier other than exactly `"plan1"` and `"plan2"`,
`estimateCost` returns `INT_MAX = 2147483647` (a plain value: the method has no
failing path). -/
theorem estimateCost_unknown_plan (q : QueryOptimizer) (plan : String)
    (h1 : plan ≠ "plan1") (h2 : plan ≠ "plan2") :
    q.estimateCost plan = INT_MAX ∧ q.estimateCost plan = 2147483647 := by
  simp [QueryOptimizer.estimateCost, h1, h2, INT_MAX]

/-- Witness for C6: the empty identifier and a case and a whitespace variant. -/
theorem estimateCost_unknown_plan_witness :
    (QueryOptimizer.mk [⟨[⟨1, "Ann", 30⟩], []⟩]).estimateCost "" = 2147483647 ∧
    (QueryOptimizer.mk [⟨[⟨1, "Ann", 30⟩], []⟩]).estimateCost "Plan1" = 2147483647 ∧
    (QueryOptimizer.mk [⟨[⟨1, "Ann", 30⟩], []⟩]).estimateCost "plan1 " = 2147483647 :=
  ⟨(estimateCost_unknown_plan _ "" (by decide) (by decide)).2,
   (estimateCost_unknown_plan _ "Plan1" (by decide) (by decide)).2,
   (estimateCost_unknown_plan _ "plan1 " (by decide) (by decide)).2⟩

/-- C7: for every plan identifier other than exactly `"plan1"` and `"plan2"`,
`executeQuery` returns the empty sequence of rows (a plain value: the function
has no failing path). -/
theorem executeQuery_unknown_plan (plan : String) (store : List Node)
    (h1 : plan ≠ "plan1") (h2 : plan ≠ "plan2") :
    executeQuery plan store = [] := by
  simp [executeQuery, h1, h2]

/-- Witness for C7: a store with a matching pair, run under unknown identifiers. -/
theorem executeQuery_unknown_plan_witness :
    executeQuery "" [⟨[⟨1, "Ann", 30⟩], [⟨1, 1, "Pen", 2⟩]⟩] = [] ∧
    executeQuery "PLAN2" [⟨[⟨1, "Ann", 30⟩], [⟨1, 1, "Pen", 2⟩]⟩] = [] ∧
    executeQuery " plan2" [⟨[⟨1, "Ann", 30⟩], [⟨1, 1, "Pen", 2⟩]⟩] = [] :=
  ⟨executeQuery_unknown_plan "" _ (by decide) (by decide),
   executeQuery_unknown_plan "PLAN2" _ (by decide) (by decide),
   executeQuery_unknown_plan " plan2" _ (by decide) (by decide)⟩

/-- C8: for `plan1` and `plan2`, every row of `executeQuery` is built from a
user and an order that are members of one and the same node and have equal
user identifiers; a store in which no node holds a matching pair yields no row,
whatever matches exist across nodes; in particular two nodes, the first with
users only and the second with orders only (Scenario C: user 1 on node 0, an
order of user 1 on node 1), give zero rows. -/
theorem executeQuery_rows_same_node (store : List Node) (plan : String)
    (hplan : plan = "plan1" ∨ plan = "plan2") :
    (∀ row ∈ executeQuery plan store,
        ∃ node ∈ store, ∃ u ∈ node.users, ∃ o ∈ node.orders,
          u.user_id = o.user_id ∧ row = makeRow u o) ∧
    ((∀ node ∈ store, ∀ u ∈ node.users, ∀ o ∈ node.orders, u.user_id ≠ o.user_id) →
        executeQuery plan store = []) ∧
    (∀ (users : List User) (orders : List Order),
        executeQuery plan [⟨users, []⟩, ⟨[], orders⟩] = []) ∧
    (∀ (name product : String) (age order_id quantity : Int),
        executeQuery "plan1" [⟨[⟨1, name, age⟩], []⟩, ⟨[], [⟨order_id, 1, product, quantity⟩]⟩]
          = []) := by
  have hrows : ∀ (st : List Node), ∀ row ∈ executeQuery plan st,
      ∃ node ∈ st, ∃ u ∈ node.users, ∃ o ∈ node.orders,
        u.user_id = o.user_id ∧ row = makeRow u o := by
    intro st row hrow
    rcases hplan with rfl | rfl
    · exact (mem_executeQuery_plan1 st row).1 hrow
    · obtain ⟨node, hnode, u, hu, o, ho, hm, _, hr⟩ := (mem_executeQuery_plan2 st row).1 hrow
      exact ⟨node, hnode, u, hu, o, ho, hm, hr⟩
  have hempty : ∀ (st : List Node),
      (∀ node ∈ st, ∀ u ∈ node.users, ∀ o ∈ node.orders, u.user_id ≠ o.user_id) →
        executeQuery plan st = [] := by
    intro st hno
    apply List.eq_nil_iff_forall_not_mem.2
    intro row hrow
    obtain ⟨node, hnode, u, hu, o, ho, hm, _⟩ := hrows st row hrow
    exact hno node hnode u hu o ho hm
  have hsplit : ∀ (users : List User) (orders : List Order),
      ∀ node ∈ [Node.mk users [], Node.mk [] orders],
        ∀ u ∈ node.users, ∀ o ∈ node.orders, u.user_id ≠ o.user_id := by
    intro users orders node hnode u hu o ho
    simp only [List.mem_cons, List.mem_singleton, List.not_mem_nil, or_false] at hnode
    rcases hnode with rfl | rfl
    · simp at ho
    · simp at hu
  refine ⟨hrows store, hempty store, fun users orders => hempty _ (hsplit users orders), ?_⟩
  intro name product age order_id quantity
  simp [executeQuery]

/-- Witness for C8: user 1 on node 0 matches order 7 (of user 1) on node 1 only
across nodes, and user 2 matches order 8 inside node 1; the one row of `plan1`
is the same-node one, and a store holding the cross-node match alone gives no
row. -/
theorem executeQuery_rows_same_node_witness :
    (∃ node ∈ [Node.mk [⟨1, "Ann", 30⟩] [],
          Node.mk [⟨2, "Bob", 41⟩] [⟨7, 1, "Pen", 2⟩, ⟨8, 2, "Ink", 3⟩]],
        ∃ u ∈ node.users, ∃ o ∈ node.orders, u.user_id = o.user_id ∧
          [("age", "41"), ("name", "Bob"), ("order_id", "8"), ("product", "Ink"),
            ("quantity", "3"), ("user_id", "2")] = makeRow u o) ∧
    executeQuery "plan1" [⟨[⟨1, "Ann", 30⟩], []⟩, ⟨[], [⟨7, 1, "Pen", 2⟩]⟩] = [] :=
  ⟨(executeQuery_rows_same_node
      [⟨[⟨1, "Ann", 30⟩], []⟩, ⟨[⟨2, "Bob", 41⟩], [⟨7, 1, "Pen", 2⟩, ⟨8, 2, "Ink", 3⟩]⟩]
      "plan1" (Or.inl rfl)).1
      [("age", "41"), ("name", "Bob"), ("order_id", "8"), ("product", "Ink"),
        ("quantity", "3"), ("user_id", "2")] (by decide),
   (executeQuery_rows_same_node [⟨[⟨1, "Ann", 30⟩], []⟩, ⟨[], [⟨7, 1, "Pen", 2⟩]⟩]
      "plan1" (Or.inl rfl)).2.1 (by decide)⟩

/-- C9: every row of `executeQuery "plan2"` comes from an order of quantity
above one, so its `quantity` field is the decimal text of an integer that is at
least two; orders of quantity at most one (zero and negative included) emit
nothing: removing them from the store leaves the result unchanged, and a store
with only such orders gives no row. -/
theorem executeQuery_plan2_quantity_above_one (store : List Node) :
    (∀ row ∈ executeQuery "plan2" store,
        ∃ node ∈ store, ∃ u ∈ node.users, ∃ o ∈ node.orders,
          u.user_id = o.user_id ∧ row = makeRow u o ∧ 1 < o.quantity ∧ 2 ≤ o.quantity ∧
          StdMap.find row "quantity" = some (to_string o.quantity) ∧
          (StdMap.find row "quantity").bind parseDecimal = some o.quantity) ∧
    executeQuery "plan2" (dropSmallOrders store) = executeQuery "plan2" store ∧
    ((∀ node ∈ store, ∀ o ∈ node.orders, o.quantity ≤ 1) → executeQuery "plan2" store = []) := by
  refine ⟨?_, ?_, ?_⟩
  · intro row hrow
    obtain ⟨node, hnode, u, hu, o, ho, hm, hq, hr⟩ := (mem_executeQuery_plan2 store row).1 hrow
    refine ⟨node, hnode, u, hu, o, ho, hm, hr, hq, by omega, ?_⟩
    have hf : StdMap.find row "quantity" = some (to_string o.quantity) := by
      rw [hr, makeRow_entries]
      rfl
    exact ⟨hf, by rw [hf, Option.some_bind, parseDecimal_to_string]⟩
  · rw [executeQuery_plan2_blocks, executeQuery_plan2_blocks, dropSmallOrders, List.map_map]
    congr 1
    apply List.map_congr_left
    intro node _
    simp [plan2NodePairs, List.filter_filter]
  · intro hsmall
    apply List.eq_nil_iff_forall_not_mem.2
    intro row hrow
    obtain ⟨node, hnode, u, _, o, ho, _, hq, _⟩ := (mem_executeQuery_plan2 store row).1 hrow
    have := hsmall node hnode o ho
    omega

/-- Witness for C9: orders of quantity 1, 0, -3 and 3 for the same user; the
row of the last one, with `quantity` field `"3"`, is in the result, and the
store without that order gives no row. -/
theorem executeQuery_plan2_quantity_above_one_witness :
    (∃ node ∈ [Node.mk [⟨1, "Ann", 30⟩]
          [⟨1, 1, "Pen", 1⟩, ⟨2, 1, "Ink", 0⟩, ⟨3, 1, "Cap", -3⟩, ⟨4, 1, "Pad", 3⟩]],
        ∃ u ∈ node.users, ∃ o ∈ node.orders,
          u.user_id = o.user_id ∧
          [("age", "30"), ("name", "Ann"), ("order_id", "4"), ("product", "Pad"),
            ("quantity", "3"), ("user_id", "1")] = makeRow u o ∧
          1 < o.quantity ∧ 2 ≤ o.quantity ∧
          StdMap.find [("age", "30"), ("name", "Ann"), ("order_id", "4"), ("product", "Pad"),
            ("quantity", "3"), ("user_id", "1")] "quantity" = some (to_string o.quantity) ∧
          (StdMap.find [("age", "30"), ("name", "Ann"), ("order_id", "4"), ("product", "Pad"),
            ("quantity", "3"), ("user_id", "1")] "quantity").bind parseDecimal
              = some o.quantity) ∧
    executeQuery "plan2"
        [⟨[⟨1, "Ann", 30⟩], [⟨1, 1, "Pen", 1⟩, ⟨2, 1, "Ink", 0⟩, ⟨3, 1, "Cap", -3⟩]⟩] = [] :=
  ⟨(executeQuery_plan2_quantity_above_one
      [⟨[⟨1, "Ann", 30⟩],
        [⟨1, 1, "Pen", 1⟩, ⟨2, 1, "Ink", 0⟩, ⟨3, 1, "Cap", -3⟩, ⟨4, 1, "Pad", 3⟩]⟩]).1
      [("age", "30"), ("name", "Ann"), ("order_id", "4"), ("product", "Pad"),
        ("quantity", "3"), ("user_id", "1")] (by decide),
   (executeQuery_plan2_quantity_above_one
      [⟨[⟨1, "Ann", 30⟩], [⟨1, 1, "Pen", 1⟩, ⟨2, 1, "Ink", 0⟩, ⟨3, 1, "Cap", -3⟩]⟩]).2.2
      (by decide)⟩

/-- C10: for `plan1` and `plan2`, every row of `executeQuery` has exactly the
six keys `user_id`, `name`, `age`, `order_id`, `product`, `quantity`; `name` and
`product` are the joined user's name and order's product unchanged, and the
other four fields are the decimal text of the corresponding integers of the
joined user and order, which reads back as the original value (negative
values included). -/
theorem executeQuery_row_fields (store : List Node) (plan : String)
    (hplan : plan = "plan1" ∨ plan = "plan2") :
    ∀ row ∈ executeQuery plan store,
      ∃ node ∈ store, ∃ u ∈ node.users, ∃ o ∈ node.orders,
        u.user_id = o.user_id ∧ row = makeRow u o ∧
        StdMap.keys row = rowKeys ∧
        (∀ k : String, (StdMap.find row k).isSome = true ↔ k ∈ rowKeys) ∧
        StdMap.find row "name" = some u.name ∧
        StdMap.find row "product" = some o.product ∧
        StdMap.find row "user_id" = some (to_string u.user_id) ∧
        StdMap.find row "age" = some (to_string u.age) ∧
        StdMap.find row "order_id" = some (to_string o.order_id) ∧
        StdMap.find row "quantity" = some (to_string o.quantity) ∧
        (StdMap.find row "user_id").bind parseDecimal = some u.user_id ∧
        (StdMap.find row "age").bind parseDecimal = some u.age ∧
        (StdMap.find row "order_id").bind parseDecimal = some o.order_id ∧
        (StdMap.find row "quantity").bind parseDecimal = some o.quantity := by
  intro row hrow
  have hsrc : ∃ node ∈ store, ∃ u ∈ node.users, ∃ o ∈ node.orders,
      u.user_id = o.user_id ∧ row = makeRow u o := by
    rcases hplan with rfl | rfl
    · exact (mem_executeQuery_plan1 store row).1 hrow
    · obtain ⟨node, hnode, u, hu, o, ho, hm, _, hr⟩ := (mem_executeQuery_plan2 store row).1 hrow
      exact ⟨node, hnode, u, hu, o, ho, hm, hr⟩
  obtain ⟨node, hnode, u, hu, o, ho, hm, hr⟩ := hsrc
  have hkeys : StdMap.keys row = rowKeys := by
    rw [hr, makeRow_entries]
    rfl
  have h1 : StdMap.find row "user_id" = some (to_string u.user_id) := by
    rw [hr, makeRow_entries]
    rfl
  have h2 : StdMap.find row "age" = some (to_string u.age) := by
    rw [hr, makeRow_entries]
    rfl
  have h3 : StdMap.find row "order_id" = some (to_string o.order_id) := by
    rw [hr, makeRow_entries]
    rfl
  have h4 : StdMap.find row "quantity" = some (to_string o.quantity) := by
    rw [hr, makeRow_entries]
    rfl
  have h5 : StdMap.find row "name" = some u.name := by
    rw [hr, makeRow_entries]
    rfl
  have h6 : StdMap.find row "product" = some o.product := by
    rw [hr, makeRow_entries]
    rfl
  refine ⟨node, hnode, u, hu, o, ho, hm, hr, hkeys, ?_, h5, h6, h1, h2, h3, h4, ?_, ?_, ?_, ?_⟩
  · intro k
    rw [find_isSome_iff_mem_keys, hkeys]
  · rw [h1, Option.some_bind, parseDecimal_to_string]
  · rw [h2, Option.some_bind, parseDecimal_to_string]
  · rw [h3, Option.some_bind, parseDecimal_to_string]
  · rw [h4, Option.some_bind, parseDecimal_to_string]

/-- Witness for C10: a user with a negative age joined with an order of
negative identifier under `plan1`; the row shows the six fields with
`"-7"` and `"-12"` as decimal text. -/
theorem executeQuery_row_fields_witness :
    executeQuery "plan1" [⟨[⟨5, "Ann Lee", -7⟩], [⟨-12, 5, "Pen", 2⟩]⟩] = [sampleRow] ∧
    ∃ node ∈ [Node.mk [⟨5, "Ann Lee", -7⟩] [⟨-12, 5, "Pen", 2⟩]],
      ∃ u ∈ node.users, ∃ o ∈ node.orders,
        u.user_id = o.user_id ∧ sampleRow = makeRow u o ∧
        StdMap.keys sampleRow = rowKeys ∧
        (∀ k : String, (StdMap.find sampleRow k).isSome = true ↔ k ∈ rowKeys) ∧
        StdMap.find sampleRow "name" = some u.name ∧
        StdMap.find sampleRow "product" = some o.product ∧
        StdMap.find sampleRow "user_id" = some (to_string u.user_id) ∧
        StdMap.find sampleRow "age" = some (to_string u.age) ∧
        StdMap.find sampleRow "order_id" = some (to_string o.order_id) ∧
        StdMap.find sampleRow "quantity" = some (to_string o.quantity) ∧
        (StdMap.find sampleRow "user_id").bind parseDecimal = some u.user_id ∧
        (StdMap.find sampleRow "age").bind parseDecimal = some u.age ∧
        (StdMap.find sampleRow "order_id").bind parseDecimal = some o.order_id ∧
        (StdMap.find sampleRow "quantity").bind parseDecimal = some o.quantity :=
  ⟨by decide,
   executeQuery_row_fields [⟨[⟨5, "Ann Lee", -7⟩], [⟨-12, 5, "Pen", 2⟩]⟩] "plan1" (Or.inl rfl)
     sampleRow (by decide)⟩

/-- C11: Scenario A. On the one-node store with user `{1,"Ann",30}` and orders
`{1,1,"Pen",1}`, `{2,1,"Pen",3}` the costs are 1 and 2, `optimizeQuery` returns
`("plan1", 1)`, `plan1` returns two rows (order 1, then order 2, both with user
1, Ann, 30) and `plan2` returns the one row of order 2 with quantity `"3"`. -/
theorem scenarioA_results :
    (QueryOptimizer.mk scenarioA).estimateCost "plan1" = 1 ∧
    (QueryOptimizer.mk scenarioA).estimateCost "plan2" = 2 ∧
    (∀ query : String, (QueryOptimizer.mk scenarioA).optimizeQuery query = ("plan1", 1)) ∧
    executeQuery "plan1" scenarioA =
      [[("age", "30"), ("name", "Ann"), ("order_id", "1"), ("product", "Pen"),
        ("quantity", "1"), ("user_id", "1")],
       [("age", "30"), ("name", "Ann"), ("order_id", "2"), ("product", "Pen"),
        ("quantity", "3"), ("user_id", "1")]] ∧
    executeQuery "plan2" scenarioA =
      [[("age", "30"), ("name", "Ann"), ("order_id", "2"), ("product", "Pen"),
        ("quantity", "3"), ("user_id", "1")]] := by
  refine ⟨by decide, by decide, ?_, by decide, by decide⟩
  intro query
  have h : (QueryOptimizer.mk scenarioA).optimizeQuery "" = ("plan1", 1) := by decide
  exact h

/-- C12: on a store that holds no records (no node at all, or only nodes
without users and orders) both costs are 0, `optimizeQuery` returns
`("plan2", 0)` by the tie-break, and `executeQuery` returns no row for every
plan identifier. -/
theorem empty_store_results (store : List Node)
    (hempty : ∀ node ∈ store, node.users = [] ∧ node.orders = [])
    (plan query : String) :
    (QueryOptimizer.mk store).estimateCost "plan1" = 0 ∧
    (QueryOptimizer.mk store).estimateCost "plan2" = 0 ∧
    (QueryOptimizer.mk store).optimizeQuery query = ("plan2", 0) ∧
    executeQuery plan store = [] := by
  have hu : totalUsers store = 0 := totalUsers_eq_zero store (fun n hn => (hempty n hn).1)
  have ho : totalOrders store = 0 := totalOrders_eq_zero store (fun n hn => (hempty n hn).2)
  have h0 : sizeTToInt 0 = 0 := by decide
  have c1 : (QueryOptimizer.mk store).estimateCost "plan1" = 0 := by
    rw [estimateCost_plan1_wrapped]
    show sizeTToInt (totalUsers store) = 0
    rw [hu, h0]
  have c2 : (QueryOptimizer.mk store).estimateCost "plan2" = 0 := by
    rw [estimateCost_plan2_wrapped]
    show sizeTToInt (totalOrders store) = 0
    rw [ho, h0]
  refine ⟨c1, c2, ?_, ?_⟩
  · simp only [QueryOptimizer.optimizeQuery, c1, c2]
    rfl
  · by_cases h1 : plan = "plan1"
    · subst h1
      apply List.eq_nil_iff_forall_not_mem.2
      intro row hrow
      obtain ⟨node, hnode, u, hu', _⟩ := (mem_executeQuery_plan1 store row).1 hrow
      rw [(hempty node hnode).1] at hu'
      exact absurd hu' (List.not_mem_nil u)
    · by_cases h2 : plan = "plan2"
      · subst h2
        apply List.eq_nil_iff_forall_not_mem.2
        intro row hrow
        obtain ⟨node, hnode, u, hu', _⟩ := (mem_executeQuery_plan2 store row).1 hrow
        rw [(hempty node hnode).1] at hu'
        exact absurd hu' (List.not_mem_nil u)
      · simp [executeQuery, h1, h2]

/-- Witness for C12: Scenario B, the store of one empty node, queried with
`plan2`, and the store without nodes, queried with `plan1`. -/
theorem empty_store_results_witness :
    ((QueryOptimizer.mk [⟨[], []⟩]).estimateCost "plan1" = 0 ∧
      (QueryOptimizer.mk [⟨[], []⟩]).estimateCost "plan2" = 0 ∧
      (QueryOptimizer.mk [⟨[], []⟩]).optimizeQuery "SELECT" = ("plan2", 0) ∧
      executeQuery "plan2" [⟨[], []⟩] = []) ∧
    ((QueryOptimizer.mk []).estimateCost "plan1" = 0 ∧
      (QueryOptimizer.mk []).estimateCost "plan2" = 0 ∧
      (QueryOptimizer.mk []).optimizeQuery "" = ("plan2", 0) ∧
      executeQuery "plan1" [] = []) :=
  ⟨empty_store_results [⟨[], []⟩] (by decide) "plan2" "SELECT",
   empty_store_results [] (by decide) "plan1" ""⟩

/-- C15: `executeQuery` distributes over store concatenation for every plan
identifier; its result is the concatenation of the results on each node alone,
so in a store `pre ++ node :: post` the rows of `pre` and `post` are the same
whatever `node` is, present or not. -/
theorem executeQuery_store_concatenation (plan : String) (s1 s2 : List Node) :
    executeQuery plan (s1 ++ s2) = executeQuery plan s1 ++ executeQuery plan s2 ∧
    executeQuery plan (s1 ++ s2)
      = ((s1 ++ s2).map (fun node => executeQuery plan [node])).flatten ∧
    (∀ node : Node, executeQuery plan (s1 ++ node :: s2)
      = executeQuery plan s1 ++ executeQuery plan [node] ++ executeQuery plan s2) := by
  refine ⟨executeQuery_append_stores plan s1 s2, executeQuery_eq_flatten_nodes plan _, ?_⟩
  intro node
  have h := executeQuery_append_stores plan [node] s2
  rw [List.singleton_append] at h
  rw [executeQuery_append_stores, h, List.append_assoc]

/-- C20: `optimizeQuery` ignores its query argument, and its result is the same
on any two stores with the same per-node user and order counts. -/
theorem optimizeQuery_ignores_query (q : QueryOptimizer) (q1 q2 : String) :
    q.optimizeQuery q1 = q.optimizeQuery q2 ∧
    q.optimizeQuery "" = q.optimizeQuery q1 ∧
    (∀ other : QueryOptimizer, nodeCounts other.nodes = nodeCounts q.nodes →
      other.optimizeQuery q2 = q.optimizeQuery q1) := by
  refine ⟨rfl, rfl, ?_⟩
  intro other hcounts
  have hu : totalUsers other.nodes = totalUsers q.nodes := by
    rw [totalUsers_eq_of_counts, totalUsers_eq_of_counts, hcounts]
  have ho : totalOrders other.nodes = totalOrders q.nodes := by
    rw [totalOrders_eq_of_counts, totalOrders_eq_of_counts, hcounts]
  simp only [QueryOptimizer.optimizeQuery, estimateCost_plan1_wrapped,
    estimateCost_plan2_wrapped, hu, ho]

/-- Witness for C20: two stores with different records but the same counts
per node (one user and two orders) get the same plan and cost. -/
theorem optimizeQuery_ignores_query_witness :
    (QueryOptimizer.mk [⟨[⟨9, "Bob", 41⟩], [⟨5, 9, "Ink", 4⟩, ⟨6, 2, "Cap", 1⟩]⟩]).optimizeQuery
        "SELECT * FROM users"
      = (QueryOptimizer.mk scenarioA).optimizeQuery "" :=
  (optimizeQuery_ignores_query (QueryOptimizer.mk scenarioA) "" "SELECT * FROM users").2.2
    (QueryOptimizer.mk [⟨[⟨9, "Bob", 41⟩], [⟨5, 9, "Ink", 4⟩, ⟨6, 2, "Cap", 1⟩]⟩]) (by decide)

/-- C14: over the underlying (user, order) pairs, the result of `plan2` is a
permutation of the sub-list of the result of `plan1` made of the pairs whose
order has quantity above one; so `plan2` never returns more rows than `plan1`,
and when every order of the store has quantity above one the two results are
permutations of each other. -/
theorem plan2_perm_filtered_plan1 (store : List Node) :
    executeQuery "plan1" store = (plan1Pairs store).map (fun p => makeRow p.1 p.2) ∧
    executeQuery "plan2" store = (plan2Pairs store).map (fun p => makeRow p.1 p.2) ∧
    List.Perm (plan2Pairs store) ((plan1Pairs store).filter pairAboveOne) ∧
    List.Sublist ((plan1Pairs store).filter pairAboveOne) (plan1Pairs store) ∧
    List.Perm (executeQuery "plan2" store)
      (((plan1Pairs store).filter pairAboveOne).map (fun p => makeRow p.1 p.2)) ∧
    (executeQuery "plan2" store).length ≤ (executeQuery "plan1" store).length ∧
    ((∀ node ∈ store, ∀ o ∈ node.orders, o.quantity > 1) →
      List.Perm (plan2Pairs store) (plan1Pairs store) ∧
      List.Perm (executeQuery "plan2" store) (executeQuery "plan1" store)) := by
  have hperm := plan2Pairs_perm store
  refine ⟨executeQuery_plan1_pairs store, executeQuery_plan2_pairs store, hperm,
    List.filter_sublist _, ?_, ?_, ?_⟩
  · rw [executeQuery_plan2_pairs]
    exact hperm.map _
  · rw [executeQuery_plan1_pairs, executeQuery_plan2_pairs, List.length_map, List.length_map,
      hperm.length_eq]
    exact List.length_filter_le _ _
  · intro hall
    have hfilter : (plan1Pairs store).filter pairAboveOne = plan1Pairs store := by
      apply List.filter_eq_self.2
      rintro ⟨u, o⟩ hp
      obtain ⟨node, hnode, _, ho, _⟩ := (mem_plan1Pairs store u o).1 hp
      simpa [pairAboveOne] using hall node hnode o ho
    rw [hfilter] at hperm
    refine ⟨hperm, ?_⟩
    rw [executeQuery_plan1_pairs, executeQuery_plan2_pairs]
    exact hperm.map _

/-- Witness for C14: two users and two orders of quantity above one on one
node; `plan1` lists the rows user by user, `plan2` order by order. -/
theorem plan2_perm_filtered_plan1_witness :
    List.Perm
      (executeQuery "plan2"
        [⟨[⟨1, "Ann", 30⟩, ⟨2, "Bob", 41⟩], [⟨7, 2, "Pen", 2⟩, ⟨8, 1, "Ink", 3⟩]⟩])
      (executeQuery "plan1"
        [⟨[⟨1, "Ann", 30⟩, ⟨2, "Bob", 41⟩], [⟨7, 2, "Pen", 2⟩, ⟨8, 1, "Ink", 3⟩]⟩]) ∧
    executeQuery "plan2"
        [⟨[⟨1, "Ann", 30⟩, ⟨2, "Bob", 41⟩], [⟨7, 2, "Pen", 2⟩, ⟨8, 1, "Ink", 3⟩]⟩]
      ≠ executeQuery "plan1"
        [⟨[⟨1, "Ann", 30⟩, ⟨2, "Bob", 41⟩], [⟨7, 2, "Pen", 2⟩, ⟨8, 1, "Ink", 3⟩]⟩] :=
  ⟨((plan2_perm_filtered_plan1
      [⟨[⟨1, "Ann", 30⟩, ⟨2, "Bob", 41⟩], [⟨7, 2, "Pen", 2⟩, ⟨8, 1, "Ink", 3⟩]⟩]).2.2.2.2.2.2
      (by decide)).2,
   by decide⟩

/-- C16: when the users of every node have pairwise distinct identifiers, every
order contributes at most one row in `plan1` and in `plan2` (its contribution
being the number of users of its node that it references); hence `plan1` has at
most as many rows as the store has orders, and `plan2` at most as many as the
store has orders of quantity above one. -/
theorem rows_bounded_by_orders (store : List Node)
    (hdistinct : ∀ node ∈ store, (node.users.map User.user_id).Nodup) :
    (∀ node ∈ store, ∀ o ∈ node.orders, rowsOfOrder node o ≤ 1) ∧
    (executeQuery "plan1" store).length
      = (store.map (fun node => (node.orders.map (rowsOfOrder node)).sum)).sum ∧
    (executeQuery "plan2" store).length
      = (store.map (fun node =>
          ((node.orders.filter (fun o => decide (o.quantity > 1))).map
            (rowsOfOrder node)).sum)).sum ∧
    (executeQuery "plan1" store).length ≤ totalOrders store ∧
    (executeQuery "plan2" store).length ≤ ordersAboveOne store := by
  have hone : ∀ node ∈ store, ∀ o : Order, rowsOfOrder node o ≤ 1 := fun node hnode o =>
    filter_user_id_length_le_one node.users o.user_id (hdistinct node hnode)
  have hlen1 : (executeQuery "plan1" store).length
      = (store.map (fun node => (node.orders.map (rowsOfOrder node)).sum)).sum := by
    rw [executeQuery_plan1_pairs, List.length_map, plan1Pairs, List.length_flatten, List.map_map]
    congr 1
    apply List.map_congr_left
    intro node _
    exact plan1NodePairs_length node
  have hlen2 : (executeQuery "plan2" store).length
      = (store.map (fun node =>
          ((node.orders.filter (fun o => decide (o.quantity > 1))).map
            (rowsOfOrder node)).sum)).sum := by
    rw [executeQuery_plan2_pairs, List.length_map, plan2Pairs, List.length_flatten, List.map_map]
    congr 1
    apply List.map_congr_left
    intro node _
    exact plan2NodePairs_length node
  have hsum : ∀ (f g : Node → Nat), (∀ node ∈ store, f node ≤ g node) →
      (store.map f).sum ≤ (store.map g).sum := by
    intro f g hfg
    exact List.sum_le_sum hfg
  refine ⟨fun node hnode o _ => hone node hnode o, hlen1, hlen2, ?_, ?_⟩
  · rw [hlen1]
    exact hsum _ _ (fun node hnode =>
      sum_map_le_length node.orders (rowsOfOrder node) (fun o _ => hone node hnode o))
  · rw [hlen2]
    exact hsum _ _ (fun node hnode =>
      sum_map_le_length _ (rowsOfOrder node) (fun o _ => hone node hnode o))

/-- Witness for C16: a node with two users of distinct identifiers and three
orders, one of them of quantity one and one referencing a user held nowhere. -/
theorem rows_bounded_by_orders_witness :
    (executeQuery "plan1"
        [⟨[⟨1, "Ann", 30⟩, ⟨2, "Bob", 41⟩],
          [⟨7, 2, "Pen", 2⟩, ⟨8, 1, "Ink", 1⟩, ⟨9, 5, "Cap", 4⟩]⟩]).length ≤ 3 ∧
    (executeQuery "plan2"
        [⟨[⟨1, "Ann", 30⟩, ⟨2, "Bob", 41⟩],
          [⟨7, 2, "Pen", 2⟩, ⟨8, 1, "Ink", 1⟩, ⟨9, 5, "Cap", 4⟩]⟩]).length ≤ 2 :=
  ⟨(rows_bounded_by_orders
      [⟨[⟨1, "Ann", 30⟩, ⟨2, "Bob", 41⟩],
        [⟨7, 2, "Pen", 2⟩, ⟨8, 1, "Ink", 1⟩, ⟨9, 5, "Cap", 4⟩]⟩] (by decide)).2.2.2.1,
   (rows_bounded_by_orders
      [⟨[⟨1, "Ann", 30⟩, ⟨2, "Bob", 41⟩],
        [⟨7, 2, "Pen", 2⟩, ⟨8, 1, "Ink", 1⟩, ⟨9, 5, "Cap", 4⟩]⟩] (by decide)).2.2.2.2⟩

/-- C17: for every sequence of `rand()` values (any non-negative values, those
up to `RAND_MAX` included), either order of the two `rand()` calls of a name,
every non-empty list of empty nodes, every `numUsers` with
`1 ≤ numUsers < INT_MAX` and `numOrders` with `0 ≤ numOrders < INT_MAX` (the
lower bound on `numOrders` is not used), `generateRandomData` completes and the
store it leaves holds users with identifiers exactly `1..numUsers`, each once,
ages between 18 and 67, orders with identifiers exactly `1..numOrders`, each
once, quantities between 1 and 5, and every order references the identifier of
a generated user, between 1 and `numUsers`. -/
theorem generateRandomData_invariants (rand : Nat → Nat) (ord : OperandOrder)
    (nodes : List Node)
    (numUsers numOrders : Int) (hne : nodes ≠ [])
    (hempty : ∀ node ∈ nodes, node.users = [] ∧ node.orders = [])
    (hU1 : 1 ≤ numUsers) (hU : numUsers < INT_MAX) (hO : numOrders < INT_MAX) :
    ∃ store, generateRandomData rand ord nodes numUsers numOrders = .ok store ∧
      List.Perm ((allUsers store).map User.user_id)
        ((List.range' 1 numUsers.toNat).map (fun k => ((k : Nat) : Int))) ∧
      (∀ u ∈ allUsers store, 18 ≤ u.age ∧ u.age ≤ 67) ∧
      List.Perm ((allOrders store).map Order.order_id)
        ((List.range' 1 numOrders.toNat).map (fun k => ((k : Nat) : Int))) ∧
      (∀ o ∈ allOrders store, 1 ≤ o.quantity ∧ o.quantity ≤ 5 ∧
        1 ≤ o.user_id ∧ o.user_id ≤ numUsers ∧
        ∃ u ∈ allUsers store, u.user_id = o.user_id) := by
  have hn : 0 < nodes.length := List.length_pos.2 hne
  have hmin : INT_MIN < numUsers := by unfold INT_MIN; omega
  have hclosed := generateRandomData_closed rand ord nodes numUsers numOrders hne hempty hU hO
    (Or.inr ⟨by omega, Or.inl hmin⟩)
  have hpu := allUsers_generated_perm rand ord nodes.length hn numUsers numOrders
  have hpo := allOrders_generated_perm rand ord nodes.length hn numUsers numOrders
  have hids : List.Perm
      ((allUsers (generatedNodes rand ord nodes.length numUsers numOrders)).map User.user_id)
      ((List.range' 1 numUsers.toNat).map (fun k => ((k : Nat) : Int))) := by
    have h := hpu.map User.user_id
    rw [List.map_map] at h
    exact h
  refine ⟨_, hclosed, hids, ?_, ?_, ?_⟩
  · intro u hu
    obtain ⟨k, _, rfl⟩ := List.mem_map.1 (hpu.mem_iff.1 hu)
    exact age_bounds _
  · have h := hpo.map Order.order_id
    rw [List.map_map] at h
    exact h
  · intro o ho
    obtain ⟨k, _, rfl⟩ := List.mem_map.1 (hpo.mem_iff.1 ho)
    have hq := quantity_bounds (rand (3 * numUsers.toNat + 3 * (k - 1) + 2))
    have hr := reference_bounds (rand (3 * numUsers.toNat + 3 * (k - 1))) numUsers hU1
    refine ⟨hq.1, hq.2, hr.1, hr.2, ?_⟩
    have hmem : (1 + Int.tmod ((rand (3 * numUsers.toNat + 3 * (k - 1)) : Nat) : Int) numUsers)
        ∈ (allUsers (generatedNodes rand ord nodes.length numUsers numOrders)).map
            User.user_id := by
      rw [hids.mem_iff, List.mem_map]
      refine ⟨(1 + Int.tmod ((rand (3 * numUsers.toNat + 3 * (k - 1)) : Nat) : Int)
        numUsers).toNat, ?_, ?_⟩
      · rw [List.mem_range'_1]
        omega
      · omega
    obtain ⟨u, hu, hid⟩ := List.mem_map.1 hmem
    exact ⟨u, hu, hid⟩

/-- Witness for C17: two empty nodes, three users and two orders, under the
sample sequence of `rand()` values 3, 10, 17, ... with the right operand of a
name evaluated first. -/
theorem generateRandomData_invariants_witness :
    generateRandomData sampleRand .rightFirst [⟨[], []⟩, ⟨[], []⟩] 3 2
      = .ok [⟨[⟨2, "Bob Jones", 56⟩], [⟨2, 1, "Keyboard", 2⟩]⟩,
             ⟨[⟨1, "Alice Brown", 35⟩, ⟨3, "Charlie Garcia", 27⟩],
              [⟨1, 1, "Monitor", 1⟩]⟩] ∧
    ∃ store, generateRandomData sampleRand .rightFirst [⟨[], []⟩, ⟨[], []⟩] 3 2 = .ok store ∧
      List.Perm ((allUsers store).map User.user_id)
        ((List.range' 1 (3 : Int).toNat).map (fun k => ((k : Nat) : Int))) ∧
      (∀ u ∈ allUsers store, 18 ≤ u.age ∧ u.age ≤ 67) ∧
      List.Perm ((allOrders store).map Order.order_id)
        ((List.range' 1 (2 : Int).toNat).map (fun k => ((k : Nat) : Int))) ∧
      (∀ o ∈ allOrders store, 1 ≤ o.quantity ∧ o.quantity ≤ 5 ∧
        1 ≤ o.user_id ∧ o.user_id ≤ 3 ∧
        ∃ u ∈ allUsers store, u.user_id = o.user_id) :=
  ⟨rfl,
   generateRandomData_invariants sampleRand .rightFirst [⟨[], []⟩, ⟨[], []⟩] 3 2 (by decide)
    (by decide) (by decide) (by decide) (by decide)⟩

/-- C18 (as stated, refuted): with `numUsers = -1` and `numOrders = 0` on one
empty node the run completes without placing any user, and
`estimateCost "plan1"` on the resulting store is 0, not `numUsers`. -/
theorem generateRandomData_cost_counterexample :
    generateRandomData sampleRand .rightFirst [⟨[], []⟩] (-1) 0 = .ok [⟨[], []⟩] ∧
    (QueryOptimizer.mk [⟨[], []⟩]).estimateCost "plan1" = 0 ∧
    (QueryOptimizer.mk [⟨[], []⟩]).estimateCost "plan1" ≠ (-1 : Int) :=
  ⟨rfl, by decide, by decide⟩

/-- C18 (amended): whatever `rand()` returns and in whichever order a name's
two calls are made, whenever `generateRandomData` completes on `n ≥ 1` empty
nodes it leaves on node `j` exactly the users, and the orders, with identifiers
`i` in `1..numUsers`, respectively `1..numOrders`, such that `i mod n = j`;
`estimateCost "plan1"` is then the number of users placed and
`estimateCost "plan2"` the number of orders placed, which are `numUsers` and
`numOrders` when these are not negative.  The run does complete for counts
below `INT_MAX` when no order is requested, or `numUsers` is not zero and
`1 + rand() % numUsers` cannot overflow (`numUsers` above `INT_MIN`, or every
`rand()` value below `INT_MAX`).  For the configuration of `main` (4 nodes, 100
users, 200 orders) it completes, each node holds 25 users and 50 orders and
`optimizeQuery` returns `("plan1", 100)`. -/
theorem generateRandomData_placement (rand : Nat → Nat) (ord : OperandOrder) :
    (∀ (nodes : List Node) (numUsers numOrders : Int) (store : List Node), nodes ≠ [] →
      (∀ node ∈ nodes, node.users = [] ∧ node.orders = []) →
      generateRandomData rand ord nodes numUsers numOrders = .ok store →
        store.length = nodes.length ∧
        (∀ j < nodes.length, ∃ node, store[j]? = some node ∧
          node.users.map User.user_id
            = ((List.range' 1 numUsers.toNat).filter
                (fun k => decide (k % nodes.length = j))).map (fun k => ((k : Nat) : Int)) ∧
          node.orders.map Order.order_id
            = ((List.range' 1 numOrders.toNat).filter
                (fun k => decide (k % nodes.length = j))).map (fun k => ((k : Nat) : Int))) ∧
        (QueryOptimizer.mk store).estimateCost "plan1" = ((numUsers.toNat : Nat) : Int) ∧
        (QueryOptimizer.mk store).estimateCost "plan2" = ((numOrders.toNat : Nat) : Int) ∧
        (0 ≤ numUsers → (QueryOptimizer.mk store).estimateCost "plan1" = numUsers) ∧
        (0 ≤ numOrders → (QueryOptimizer.mk store).estimateCost "plan2" = numOrders)) ∧
    (∀ (nodes : List Node) (numUsers numOrders : Int), nodes ≠ [] →
      (∀ node ∈ nodes, node.users = [] ∧ node.orders = []) →
      numUsers < INT_MAX → numOrders < INT_MAX →
      (numOrders ≤ 0 ∨ (numUsers ≠ 0 ∧
        (INT_MIN < numUsers ∨ ∀ k, ((rand k : Nat) : Int) < INT_MAX))) →
      ∃ store, generateRandomData rand ord nodes numUsers numOrders = .ok store) ∧
    (∃ store, generateRandomData rand ord mainNodes 100 200 = .ok store ∧
      store.length = 4 ∧
      (∀ node ∈ store, node.users.length = 25 ∧ node.orders.length = 50) ∧
      (∀ query : String, (QueryOptimizer.mk store).optimizeQuery query = ("plan1", 100))) := by
  refine ⟨?_, ?_, ?_⟩
  · intro nodes numUsers numOrders store hne hempty hok
    obtain ⟨hstore, hU, hO⟩ :=
      generateRandomData_ok_closed rand ord nodes numUsers numOrders store hne hempty hok
    subst hstore
    have hn : 0 < nodes.length := List.length_pos.2 hne
    have hcost := estimateCost_generated rand ord nodes.length hn numUsers numOrders hU hO
    have hU' : numUsers.toNat < 2 ^ 64 := by unfold INT_MAX at hU; omega
    have hO' : numOrders.toNat < 2 ^ 64 := by unfold INT_MAX at hO; omega
    refine ⟨by simp [generatedNodes], ?_, hcost.1, hcost.2, ?_, ?_⟩
    · intro j hj
      refine ⟨⟨usersOn rand ord nodes.length numUsers.toNat j,
        ordersOn rand numUsers (3 * numUsers.toNat) nodes.length numOrders.toNat j⟩, ?_,
        usersOn_ids rand ord nodes.length numUsers.toNat j hU',
        ordersOn_ids rand numUsers _ nodes.length numOrders.toNat j hO'⟩
      simp [generatedNodes, hj]
    · intro h0
      rw [hcost.1]
      omega
    · intro h0
      rw [hcost.2]
      omega
  · intro nodes numUsers numOrders hne hempty hU hO hsafe
    exact ⟨_, generateRandomData_closed rand ord nodes numUsers numOrders hne hempty hU hO hsafe⟩
  · have hmin : INT_MIN < (100 : Int) := by decide
    have hclosed := generateRandomData_closed rand ord mainNodes 100 200 (by decide) (by decide)
      (by decide) (by decide) (Or.inr ⟨by decide, Or.inl hmin⟩)
    have hcost := estimateCost_generated rand ord 4 (by decide) 100 200 (by decide) (by decide)
    refine ⟨_, hclosed, by simp [generatedNodes, mainNodes], ?_, ?_⟩
    · intro node hnode
      obtain ⟨j, hj, hu, ho⟩ := generatedNodes_counts rand ord 4 100 200 node hnode
      rw [hu, ho]
      exact landingCount_main j hj
    · intro query
      have h1 : (QueryOptimizer.mk (generatedNodes rand ord mainNodes.length 100 200)).estimateCost
          "plan1" = 100 := hcost.1
      have h2 : (QueryOptimizer.mk (generatedNodes rand ord mainNodes.length 100 200)).estimateCost
          "plan2" = 200 := hcost.2
      simp only [QueryOptimizer.optimizeQuery, h1, h2]
      rfl

/-- Witness for C18 (amended): three users and two orders on two empty nodes
under the sample sequence of `rand()` values; the run completes and the store
it returns has users 2 on node 0 and 1, 3 on node 1. -/
theorem generateRandomData_placement_witness :
    (∃ store, generateRandomData sampleRand .rightFirst [⟨[], []⟩, ⟨[], []⟩] 3 2 = .ok store) ∧
    (∀ j < 2, ∃ node,
      [Node.mk [⟨2, "Bob Jones", 56⟩] [⟨2, 1, "Keyboard", 2⟩],
       Node.mk [⟨1, "Alice Brown", 35⟩, ⟨3, "Charlie Garcia", 27⟩]
         [⟨1, 1, "Monitor", 1⟩]][j]? = some node ∧
      node.users.map User.user_id
        = ((List.range' 1 3).filter (fun k => decide (k % 2 = j))).map
            (fun k => ((k : Nat) : Int)) ∧
      node.orders.map Order.order_id
        = ((List.range' 1 2).filter (fun k => decide (k % 2 = j))).map
            (fun k => ((k : Nat) : Int))) ∧
    (QueryOptimizer.mk
      [Node.mk [⟨2, "Bob Jones", 56⟩] [⟨2, 1, "Keyboard", 2⟩],
       Node.mk [⟨1, "Alice Brown", 35⟩, ⟨3, "Charlie Garcia", 27⟩]
         [⟨1, 1, "Monitor", 1⟩]]).estimateCost "plan1" = 3 :=
  ⟨(generateRandomData_placement sampleRand .rightFirst).2.1 [⟨[], []⟩, ⟨[], []⟩] 3 2
      (by decide) (by decide) (by decide) (by decide) (Or.inr ⟨by decide, Or.inl (by decide)⟩),
   ((generateRandomData_placement sampleRand .rightFirst).1 [⟨[], []⟩, ⟨[], []⟩] 3 2
      [Node.mk [⟨2, "Bob Jones", 56⟩] [⟨2, 1, "Keyboard", 2⟩],
       Node.mk [⟨1, "Alice Brown", 35⟩, ⟨3, "Charlie Garcia", 27⟩] [⟨1, 1, "Monitor", 1⟩]]
      (by decide) (by decide) rfl).2.1,
   ((generateRandomData_placement sampleRand .rightFirst).1 [⟨[], []⟩, ⟨[], []⟩] 3 2
      [Node.mk [⟨2, "Bob Jones", 56⟩] [⟨2, 1, "Keyboard", 2⟩],
       Node.mk [⟨1, "Alice Brown", 35⟩, ⟨3, "Charlie Garcia", 27⟩] [⟨1, 1, "Monitor", 1⟩]]
      (by decide) (by decide) rfl).2.2.1⟩

/-- C19 (as stated, refuted): with `numUsers = INT_MIN`, `numOrders = 1` and
`rand()` returning 2147483647, both counts are below `INT_MAX`, yet on one
empty node, where the claimed condition holds, the run does not complete: it
ends in the signed overflow of `1 + rand() % numUsers`; and on an empty node
list, where the claimed condition fails, the run ends in that same overflow
before it reaches `i % nodes.size()`, not in a modulus by zero. -/
theorem generateRandomData_overflow_counterexample :
    INT_MIN < INT_MAX ∧ (1 : Int) < INT_MAX ∧
    ((INT_MIN ≤ 0 ∨ [Node.mk [] []] ≠ []) ∧
      ((1 : Int) ≤ 0 ∨ (INT_MIN ≠ 0 ∧ [Node.mk [] []] ≠ []))) ∧
    generateRandomData maxRand .rightFirst [⟨[], []⟩] INT_MIN 1 = .error .signedOverflow ∧
    (¬ ∃ store, generateRandomData maxRand .rightFirst [⟨[], []⟩] INT_MIN 1 = .ok store) ∧
    ¬ ((INT_MIN ≤ 0 ∨ ([] : List Node) ≠ []) ∧
      ((1 : Int) ≤ 0 ∨ (INT_MIN ≠ 0 ∧ ([] : List Node) ≠ []))) ∧
    generateRandomData maxRand .rightFirst [] INT_MIN 1 = .error .signedOverflow ∧
    generateRandomData maxRand .rightFirst [] INT_MIN 1 ≠ .error .modulusByZero := by
  have h1 : generateRandomData maxRand .rightFirst [⟨[], []⟩] INT_MIN 1
      = .error .signedOverflow := rfl
  have h2 : generateRandomData maxRand .rightFirst [] INT_MIN 1 = .error .signedOverflow := rfl
  refine ⟨by decide, by decide, by decide, h1, ?_, by decide, h2, ?_⟩
  · rintro ⟨store, hstore⟩
    rw [h1] at hstore
    cases hstore
  · rw [h2]
    intro h
    cases h

/-- C19 (amended): for `numUsers` and `numOrders` below `INT_MAX`, every
sequence of `rand()` values and either order of a name's two calls, provided
`1 + rand() % numUsers` cannot overflow (`numUsers` above `INT_MIN`, or every
`rand()` value below `INT_MAX`), `generateRandomData` completes, without a
modulus by zero and without an out-of-range node index, exactly when
(`numUsers ≤ 0` or the node list is non-empty) and (`numOrders ≤ 0` or
(`numUsers ≠ 0` and the node list is non-empty)); otherwise it faults at a
modulus by zero: an empty node list at `i % nodes.size()` as soon as one record
is distributed, and `numUsers = 0` with `numOrders ≥ 1` at `rand() % numUsers`.
The node index is never out of range. -/
theorem generateRandomData_completes_iff (rand : Nat → Nat) (ord : OperandOrder)
    (nodes : List Node)
    (numUsers numOrders : Int) (hU : numUsers < INT_MAX) (hO : numOrders < INT_MAX)
    (hno : INT_MIN < numUsers ∨ ∀ k, ((rand k : Nat) : Int) < INT_MAX) :
    ((∃ store, generateRandomData rand ord nodes numUsers numOrders = .ok store) ↔
      ((numUsers ≤ 0 ∨ nodes ≠ []) ∧ (numOrders ≤ 0 ∨ (numUsers ≠ 0 ∧ nodes ≠ [])))) ∧
    (¬ ((numUsers ≤ 0 ∨ nodes ≠ []) ∧ (numOrders ≤ 0 ∨ (numUsers ≠ 0 ∧ nodes ≠ []))) →
      generateRandomData rand ord nodes numUsers numOrders = .error .modulusByZero) ∧
    (nodes = [] → (1 ≤ numUsers ∨ 1 ≤ numOrders) →
      generateRandomData rand ord nodes numUsers numOrders = .error .modulusByZero) ∧
    (numUsers = 0 → 1 ≤ numOrders →
      generateRandomData rand ord nodes numUsers numOrders = .error .modulusByZero) ∧
    generateRandomData rand ord nodes numUsers numOrders ≠ .error .indexOutOfRange ∧
    generateRandomData rand ord nodes numUsers numOrders ≠ .error .signedOverflow := by
  obtain ⟨hok, herr⟩ := generateRandomData_outcome rand ord nodes numUsers numOrders hU hO hno
  refine ⟨⟨?_, hok⟩, herr, ?_, ?_, ?_, ?_⟩
  · rintro ⟨store, hstore⟩
    by_contra hc
    rw [herr hc] at hstore
    cases hstore
  · intro hnil hone
    apply herr
    rintro ⟨h1, h2⟩
    rcases hone with h | h
    · rcases h1 with h1 | h1
      · omega
      · exact h1 hnil
    · rcases h2 with h2 | h2
      · omega
      · exact h2.2 hnil
  · intro hzero hone
    apply herr
    rintro ⟨_, h2⟩
    rcases h2 with h2 | h2
    · omega
    · exact h2.1 hzero
  · by_cases hc : (numUsers ≤ 0 ∨ nodes ≠ []) ∧ (numOrders ≤ 0 ∨ (numUsers ≠ 0 ∧ nodes ≠ []))
    · obtain ⟨store, hstore⟩ := hok hc
      rw [hstore]
      intro h
      cases h
    · rw [herr hc]
      intro h
      cases h
  · by_cases hc : (numUsers ≤ 0 ∨ nodes ≠ []) ∧ (numOrders ≤ 0 ∨ (numUsers ≠ 0 ∧ nodes ≠ []))
    · obtain ⟨store, hstore⟩ := hok hc
      rw [hstore]
      intro h
      cases h
    · rw [herr hc]
      intro h
      cases h

/-- Witness for C19 (amended): an empty node list with one user faults,
`numUsers = 0` with one order faults, a negative `numUsers` with two orders on
one node completes, and `numUsers = INT_MIN` completes when `rand()` stays
below `INT_MAX`. -/
theorem generateRandomData_completes_iff_witness :
    generateRandomData sampleRand .rightFirst [] 1 0 = .error .modulusByZero ∧
    generateRandomData sampleRand .rightFirst [⟨[], []⟩] 0 1 = .error .modulusByZero ∧
    (∃ store, generateRandomData sampleRand .rightFirst [⟨[], []⟩] (-3) 2 = .ok store) ∧
    (∃ store, generateRandomData (fun _ => 5) .leftFirst [⟨[], []⟩] INT_MIN 1 = .ok store) :=
  ⟨(generateRandomData_completes_iff sampleRand .rightFirst [] 1 0 (by decide) (by decide)
      (Or.inl (by decide))).2.1 (by decide),
   (generateRandomData_completes_iff sampleRand .rightFirst [⟨[], []⟩] 0 1 (by decide)
      (by decide) (Or.inl (by decide))).2.2.2.1 rfl (by decide),
   (generateRandomData_completes_iff sampleRand .rightFirst [⟨[], []⟩] (-3) 2 (by decide)
      (by decide) (Or.inl (by decide))).1.2 (by decide),
   (generateRandomData_completes_iff (fun _ => 5) .leftFirst [⟨[], []⟩] INT_MIN 1 (by decide)
      (by decide) (Or.inr (by intro k; show ((5 : Nat) : Int) < INT_MAX; decide))).1.2
      (by decide)⟩

end QueryOptimizerProject
